import Mathlib

/-!
Shallow embedding of the OBJ2PMaker mesh-to-grid converter.

Sources embedded here:
* `src/extractBodies.py` — the z-cluster stationing pipeline
  (`read_target_dims_from_acf`, `build_stations_from_geometry`,
  `pad_or_truncate_stations`, `generate_geo_xyz_literal_from_stations`,
  `compute_grid_radius_ft`, `replace_body_block`).
* `src/files/OLD/cis_bodies2pm_working.py` — the topology-based pipeline
  (`compute_part_rad_from_rings`, adjacency/BFS layering,
  `build_station_vertex_groups`, `build_pm_rings_for_mesh`,
  `_pm_i_print_order`, `_pm_j_print_order`, `build_bodies_from_obj`,
  `build_body_block_from_template`, `rewrite_acf_bodies`,
  `generate_bodies_and_rewrite_acf`).

Modelling conventions:
* Python floats are modelled as exact rationals `ℚ`; the fixed-precision
  decimal rendering of emitted values is abstracted (where a line's text
  matters we keep the exact rational in a record field instead).
* Python strings are modelled as `List Char` (`Line`), with `lstrip`,
  `strip`, `split`, `startswith` translated directly.
* Python's stable `sort`/`sorted` is modelled by the stable
  `List.insertionSort` (any two stable sorts under the same comes-before
  test agree elementwise).
* Python dict/set iteration order (BFS discovery order of a layer) is
  modelled by first-insertion order of a duplicate-free list; layer
  membership and sizes — the only facts the theorems below rely on —
  coincide with the Python sets.
* Fallible Python code (raised exceptions) returns `Except String`/`Option`.
-/

/-! ### Text utilities (Python `str` methods on `List Char`) -/

abbrev Line := List Char

/-- Python whitespace for `str.strip`/`str.split` (ASCII subset). -/
def pyIsSpace (c : Char) : Bool :=
  c = ' ' || c = '\t' || c = '\n' || c = '\x0d' || c = '\x0b' || c = '\x0c'

/-- Python `str.lstrip()`. -/
def lstrip (l : Line) : Line := l.dropWhile pyIsSpace

/-- Python `str.rstrip()`. -/
def rstrip (l : Line) : Line := (l.reverse.dropWhile pyIsSpace).reverse

/-- Python `str.strip()`. -/
def pyStrip (l : Line) : Line := rstrip (lstrip l)

/-- Python `str.startswith(p)`. -/
def pyStarts (l p : Line) : Bool := p.isPrefixOf l

/-- Helper for `pySplitWs`: accumulates the current token (reversed). -/
def splitWsAux : Line → Line → List Line
  | [], acc => if acc.isEmpty then [] else [acc.reverse]
  | c :: rest, acc =>
    if pyIsSpace c then
      if acc.isEmpty then splitWsAux rest [] else acc.reverse :: splitWsAux rest []
    else splitWsAux rest (c :: acc)

/-- Python `str.split()` (split on whitespace runs, no empty tokens). -/
def pySplitWs (l : Line) : List Line := splitWsAux l []

def digitsToNat (ds : Line) : Nat := ds.foldl (fun n c => n * 10 + (c.toNat - 48)) 0

/-- Python `int(token)` on an ASCII decimal token (sign plus digits).
Exotic accepted forms of CPython (`1_2`, Unicode digits) are out of scope. -/
def toIntOpt (t : Line) : Option Int :=
  match t with
  | '-' :: ds =>
    if ds.isEmpty || !ds.all Char.isDigit then none else some (-(Int.ofNat (digitsToNat ds)))
  | '+' :: ds =>
    if ds.isEmpty || !ds.all Char.isDigit then none else some (Int.ofNat (digitsToNat ds))
  | ds =>
    if ds.isEmpty || !ds.all Char.isDigit then none else some (Int.ofNat (digitsToNat ds))

def digitChar (n : Nat) : Char := Char.ofNat (48 + n)

/-- Decimal digits of a natural number (fuel-structured so it reduces). -/
def natCharsAux : Nat → Nat → Line
  | 0, _ => []
  | fuel + 1, n => if n < 10 then [digitChar n] else natCharsAux fuel (n / 10) ++ [digitChar (n % 10)]

/-- Python `str(n)` for a natural number. -/
def natChars (n : Nat) : Line := natCharsAux (n + 1) n

/-! ### Config Patcher, prefix-strip strategy (`extractBodies.replace_body_block`) -/

/-- The owning path prefix `P _body/<b>/` of one body block. -/
def bodyPfx (body_index : Nat) : Line := "P _body/".data ++ natChars body_index ++ ['/']

/-- Whether a document line belongs to body `b`'s block
(`l.lstrip().startswith("P _body/<b>/")`). -/
def isBodyLine (body_index : Nat) (l : Line) : Bool := pyStarts (lstrip l) (bodyPfx body_index)

/-- `extractBodies.replace_body_block`: drop every line of the addressed
block, then re-insert the new block at the position of the first dropped
line (clamped), or after all kept lines when the block did not exist. -/
def replace_body_block (acf_lines : List Line) (body_index : Nat) (new_block : List Line) :
    List Line :=
  let kept := acf_lines.filter (fun l => !isBodyLine body_index l)
  let first_pos :=
    match acf_lines.findIdx? (fun l => isBodyLine body_index l) with
    | some i => i
    | none => kept.length
  let first_pos := min first_pos kept.length
  kept.take first_pos ++ new_block ++ kept.drop first_pos

/-- The current block of a document for body `b`: the lines whose stripped
content starts with the owning prefix, in document order. -/
def currentBlock (acf_lines : List Line) (body_index : Nat) : List Line :=
  acf_lines.filter (fun l => isBodyLine body_index l)

/-! ### Config Patcher, marker strategy (`cis_bodies2pm_working.rewrite_acf_bodies`) -/

def propBeginMark : Line := "PROPERTIES_BEGIN".data
def propEndMark : Line := "PROPERTIES_END".data

/-- Whether a line is any body property line (`startswith("P _body/")`). -/
def isAnyBodyLine (l : Line) : Bool := pyStarts (lstrip l) "P _body/".data

/-- The marker scan of `rewrite_acf_bodies`: walk the lines, remember the
last `PROPERTIES_BEGIN` seen, stop at the first `PROPERTIES_END`. -/
def findMarkersAux : List Line → Nat → Option Nat → Option Nat × Option Nat
  | [], _, pb => (pb, none)
  | l :: rest, idx, pb =>
    if pyStrip l = propBeginMark then findMarkersAux rest (idx + 1) (some idx)
    else if pyStrip l = propEndMark then (pb, some idx)
    else findMarkersAux rest (idx + 1) pb

def findMarkers (lines : List Line) : Option Nat × Option Nat := findMarkersAux lines 0 none

/-- `rewrite_acf_bodies` (pure core; file IO stripped): locate the
properties section, find the first and last `P _body/` line inside it,
and splice the new body lines over that whole span; with no body line
present, insert just after `PROPERTIES_BEGIN`. -/
def rewrite_acf_bodies (lines : List Line) (new_body_lines : List Line) :
    Except String (List Line) :=
  match findMarkers lines with
  | (some prop_begin, some prop_end) =>
    if prop_end ≤ prop_begin then .error "Could not find valid PROPERTIES block in ACF."
    else
      let span := List.range' (prop_begin + 1) (prop_end - (prop_begin + 1))
      let bodyIdxs := span.filter (fun idx => isAnyBodyLine (lines.getD idx []))
      let body_start := bodyIdxs.headD (prop_begin + 1)
      let body_end := bodyIdxs.getLastD prop_begin
      .ok (lines.take body_start ++ new_body_lines ++ lines.drop (body_end + 1))
  | _ => .error "Could not find valid PROPERTIES block in ACF."

/-! ### Dimension discovery (`extractBodies.read_target_dims_from_acf`) -/

def iCountPfx (body_index : Nat) : Line :=
  "P _body/".data ++ natChars body_index ++ "/_locked/i_count".data

def jCountPfx (body_index : Nat) : Line :=
  "P _body/".data ++ natChars body_index ++ "/_locked/j_count".data

/-- Last whitespace token of a stripped line, parsed as `int` (the
`int(t.split()[-1])` step; parse failure is the swallowed exception). -/
def lastTokenInt (t : Line) : Option Int :=
  match (pySplitWs t).getLast? with
  | some tok => toIntOpt tok
  | none => none

/-- The scanning loop of `read_target_dims_from_acf`: each line whose
stripped text starts with the `i_count` prefix (re)assigns `i_count` when
its last token parses, `elif` ditto for `j_count`; the loop stops after
the first line that leaves both assigned. -/
def readDimsAux (pi pj : Line) : List Line → Option Int → Option Int → Option Int × Option Int
  | [], i, j => (i, j)
  | s :: rest, i, j =>
    let t := pyStrip s
    let i' := if pyStarts t pi then (match lastTokenInt t with | some v => some v | none => i) else i
    let j' :=
      if !pyStarts t pi && pyStarts t pj then
        (match lastTokenInt t with | some v => some v | none => j)
      else j
    if i'.isSome && j'.isSome then (i', j') else readDimsAux pi pj rest i' j'

/-- `extractBodies.read_target_dims_from_acf` with defaults 20 and 18. -/
def read_target_dims_from_acf (acf_lines : List Line) (body_index : Nat) : Int × Int :=
  let r := readDimsAux (iCountPfx body_index) (jCountPfx body_index) acf_lines none none
  (r.1.getD 20, r.2.getD 18)

/-- A line that sets the `i_count`/`j_count` slot: prefix matches and the
last token parses. -/
def dimSetter (p : Line) (s : Line) : Bool :=
  pyStarts (pyStrip s) p && (lastTokenInt (pyStrip s)).isSome

/-- Value carried by the first slot-setting line for a prefix, if any. -/
def firstDimVal (p : Line) (acf_lines : List Line) : Option Int :=
  match acf_lines.find? (dimSetter p) with
  | some s => lastTokenInt (pyStrip s)
  | none => none

/-! ### Emission print order (`_pm_i_print_order` / `_pm_j_print_order`) -/

/-- Shared loop body of both print-order functions: 0, 1, the indices from
10 upward, then 2..9 (each only when in range and not already present). -/
def pmPrintOrder (total : Nat) : List Nat :=
  let order : List Nat := if total > 0 then [0] else []
  let order := if total > 1 then order ++ [1] else order
  let order := order ++ List.range' 10 (total - 10)
  [2, 3, 4, 5, 6, 7, 8, 9].foldl
    (fun acc i => if i < total && !acc.contains i then acc ++ [i] else acc) order

/-- `cis_bodies2pm_working._pm_i_print_order`. -/
def pm_i_print_order (total_stations : Nat := 20) : List Nat := pmPrintOrder total_stations

/-- `cis_bodies2pm_working._pm_j_print_order`. -/
def pm_j_print_order (points_per_ring : Nat := 18) : List Nat := pmPrintOrder points_per_ring

/-! ### Geometry model (`extractBodies.py` z-cluster pipeline) -/

abbrev Vec3 := ℚ × ℚ × ℚ

/-- The fixed meters→feet conversion constant `FT_PER_M = 3.28084`. -/
def FT_PER_M : ℚ := 328084 / 100000

/-- Stable ascending sort by the z coordinate (`sorted(verts, key=v[2])`). -/
def sortByZ (verts : List Vec3) : List Vec3 :=
  List.insertionSort (fun a b => a.2.2 ≤ b.2.2) verts

/-- Chunking of the interior vertices into stations of `verts_per_loop`
(the `while off < n_mid` loop; the loop diverges for `verts_per_loop = 0`,
which the GUI rules out, so that case returns `[]`). -/
def chunkList (vpl : Nat) (xs : List Vec3) : List (List Vec3) :=
  if h : xs.isEmpty || vpl == 0 then []
  else xs.take vpl :: chunkList vpl (xs.drop vpl)
  termination_by xs.length
  decreasing_by
    simp only [Bool.or_eq_true, List.isEmpty_iff, beq_iff_eq] at h
    push_neg at h
    have h1 : xs ≠ [] := h.1
    have h2 : 0 < vpl := Nat.pos_of_ne_zero h.2
    have : 0 < xs.length := List.length_pos.mpr h1
    simp [List.length_drop]
    omega

/-- `extractBodies.build_stations_from_geometry`. -/
def build_stations_from_geometry (verts : List Vec3) (verts_per_loop : Nat)
    (with_tip_tail : Bool := true) : List (List Vec3) :=
  if verts.isEmpty then []
  else
    let v_sorted := sortByZ verts
    if v_sorted.length < 1 + verts_per_loop + 1 then [v_sorted]
    else
      let tip := v_sorted.take 1
      let tail := v_sorted.drop (v_sorted.length - 1)
      let middle := (v_sorted.drop 1).dropLast
      (if with_tip_tail then [tip] else []) ++ chunkList verts_per_loop middle ++
        (if with_tip_tail then [tail] else [])

/-- `extractBodies.pad_or_truncate_stations`. -/
def pad_or_truncate_stations (stations : List (List Vec3)) (target_i : Nat) :
    List (List Vec3) :=
  if stations.length = target_i then stations
  else if stations.length > target_i then stations.take target_i
  else stations ++ List.replicate (target_i - stations.length) []

/-- One emitted geometry line `P _body/<b>/_geo_xyz/<i>,<j>,<k> <val>`,
with the value kept as an exact rational. -/
structure GeoCell where
  b : Nat
  i : Nat
  j : Nat
  k : Nat
  val : ℚ
deriving DecidableEq, Repr

/-- The index `last_non_empty_idx` (`-1` when every station is empty). -/
def lastNonEmptyIdx (stations : List (List Vec3)) : Int :=
  match stations.enum.reverse.find? (fun p => !p.2.isEmpty) with
  | some p => (p.1 : Int)
  | none => -1

/-- Python `sum(l)/len(l) if l else 0.0`. -/
def meanQ (l : List ℚ) : ℚ := if l.isEmpty then 0 else l.sum / l.length

/-- Stable descending sort by the y coordinate
(`sorted(pos, key=v[1], reverse=True)`). -/
def sortByYDesc (verts : List Vec3) : List Vec3 :=
  List.insertionSort (fun a b => b.2.1 ≤ a.2.1) verts

/-- The `cell` dict of `generate_geo_xyz_literal_from_stations`: for each
vertex (in y-descending order) write its feet coordinates at the right
slot `jr` and the x-mirrored copy at the left slot `jl`; later writes
shadow earlier ones. -/
def cellStep (js_right js_left : List Nat) (m : Nat × Nat → Option ℚ) (p : Nat × Vec3) :
    Nat × Nat → Option ℚ :=
  let x_ft := p.2.1 * FT_PER_M
  let y_ft := p.2.2.1 * FT_PER_M
  let z_ft := p.2.2.2 * FT_PER_M
  let jr := js_right.getD (p.1 % max 1 js_right.length) 0
  let jl := js_left.getD (p.1 % max 1 js_left.length) 0
  fun key =>
    if key = (jl, 2) then some z_ft
    else if key = (jl, 1) then some y_ft
    else if key = (jl, 0) then some (-x_ft)
    else if key = (jr, 2) then some z_ft
    else if key = (jr, 1) then some y_ft
    else if key = (jr, 0) then some x_ft
    else m key

def buildCellMap (js_right js_left : List Nat) (pos_sorted : List Vec3) :
    Nat × Nat → Option ℚ :=
  pos_sorted.enum.foldl (cellStep js_right js_left) (fun _ => none)

/-- The per-station loop body of `generate_geo_xyz_literal_from_stations`:
empty stations emit zeros, tip/tail stations broadcast the mean of the
off-axis coordinates with x = 0, mid stations wind the positive half into
the right slots and its x-mirror into the left slots. -/
def stationCells (b J : Nat) (js_right js_left : List Nat) (lastNE : Int) (wt : Bool)
    (i : Nat) (verts_here : List Vec3) : List GeoCell :=
  if verts_here.isEmpty then
    (List.range J).flatMap (fun j => [⟨b, i, j, 0, 0⟩, ⟨b, i, j, 1, 0⟩, ⟨b, i, j, 2, 0⟩])
  else if (wt && i == 0) || (wt && (i : Int) == lastNE) then
    let y_ft := meanQ (verts_here.map (fun v => v.2.1)) * FT_PER_M
    let z_ft := meanQ (verts_here.map (fun v => v.2.2)) * FT_PER_M
    (List.range J).flatMap (fun j => [⟨b, i, j, 0, 0⟩, ⟨b, i, j, 1, y_ft⟩, ⟨b, i, j, 2, z_ft⟩])
  else
    let pos0 := verts_here.filter (fun v => decide (0 ≤ v.1))
    let pos := if pos0.isEmpty then verts_here else pos0
    let cell := buildCellMap js_right js_left (sortByYDesc pos)
    (List.range J).flatMap (fun j =>
      [⟨b, i, j, 0, (cell (j, 0)).getD 0⟩, ⟨b, i, j, 1, (cell (j, 1)).getD 0⟩,
        ⟨b, i, j, 2, (cell (j, 2)).getD 0⟩])

/-- `extractBodies.generate_geo_xyz_literal_from_stations`, with each
emitted text line modelled as a `GeoCell`. -/
def generate_geo_xyz_from_stations (stations_mesh : List (List Vec3)) (body_index : Nat)
    (target_i target_j : Nat) (with_tip_tail : Bool := true) : List GeoCell :=
  let stations := pad_or_truncate_stations stations_mesh target_i
  let J := max 2 target_j
  let half := J / 2
  let js_right := List.range half
  let js_left := (List.range (J - half)).map (fun t => J - 1 - t)
  let lastNE := lastNonEmptyIdx stations
  stations.enum.flatMap (fun p =>
    stationCells body_index J js_right js_left lastNE with_tip_tail p.1 p.2)

/-- `extractBodies.compute_grid_radius_ft`: scan the (source) vertex list
for the largest `|x|` and `|y|`, convert to feet and add the 3 ft margin
(5 ft for an empty list). -/
def compute_grid_radius_ft (verts : List Vec3) : ℚ :=
  if verts.isEmpty then 5
  else
    let max_abs_x := (verts.map (fun v => |v.1|)).foldl max 0
    let max_abs_y := (verts.map (fun v => |v.2.1|)).foldl max 0
    max max_abs_x max_abs_y * FT_PER_M + 3

/-- `cis_bodies2pm_working.compute_part_rad_from_rings`: max of `|x|`,
`|y|` over every ring vertex (already in feet) plus the buffer. -/
def compute_part_rad_from_rings (rings : List (List Vec3)) (buffer_ft : ℚ := 1) : ℚ :=
  let m := rings.foldl
    (fun acc ring => ring.foldl
      (fun mm v =>
        (if |v.1| > mm.1 then |v.1| else mm.1, if |v.2.1| > mm.2 then |v.2.1| else mm.2))
      acc)
    (0, 0)
  max m.1 m.2 + buffer_ft

/-- Spec-side reading of the bounding radius ("max over the two horizontal
axes of every emitted coordinate"): largest `|x|`/`|y|` value over a list
of emitted geometry cells. -/
def maxHorizAbs (cells : List GeoCell) : ℚ :=
  ((cells.filter (fun c => c.k == 0 || c.k == 1)).map (fun c => |c.val|)).foldl max 0

/-! ### Ring canonicalizer (`cis_bodies2pm_working.build_pm_rings_for_mesh`) -/

/-- Output snap epsilon `eps = 1e-5`. -/
def epsQ : ℚ := 1 / 100000

/-- Half-space test epsilon `eps_split = 1e-5`. -/
def epsSplit : ℚ := 1 / 100000

/-- Centerline detection epsilon `eps_center = 1e-4`. -/
def epsCenter : ℚ := 1 / 10000

/-- The `abs(x_ft) > 1e-12` clamp used when computing `atan2`. -/
def epsClamp : ℚ := 1 / 1000000000000

/-- Snap a value below `eps` in magnitude to exactly zero. -/
def snapE (q : ℚ) : ℚ := if |q| < epsQ then 0 else q

/-- Meters → feet on a vertex. -/
def toFeet (v : Vec3) : Vec3 := (v.1 * FT_PER_M, v.2.1 * FT_PER_M, v.2.2 * FT_PER_M)

/-- The positive half of a mid station:
`[v for v in station_verts_m if v[0] >= -eps_split]`. -/
def half_raw (station_verts_m : List Vec3) : List Vec3 :=
  station_verts_m.filter (fun v => decide (-epsSplit ≤ v.1))

/-- Indices of centerline vertices of the half (|x_ft| < eps_center). -/
def center_indices (hft : List Vec3) : List Nat :=
  (hft.enum.filter (fun p => decide (|p.2.1| < epsCenter))).map Prod.fst

/-- `math.atan2 y x` as a real number (`Complex.arg` of `x + y·i`). -/
noncomputable def atan2R (y x : ℝ) : ℝ := Complex.arg ⟨x, y⟩

/-- The sort key `math.atan2(y_ft, x_ft if abs(x_ft) > 1e-12 else 0.0)`. -/
noncomputable def angOf (v : Vec3) : ℝ :=
  atan2R (v.2.1 : ℝ) (if |v.1| > epsClamp then (v.1 : ℝ) else 0)

/-- Stable descending sort by the `atan2` key
(`side_with_angle.sort(key=t[3], reverse=True)`). -/
noncomputable def sortByAngDesc (l : List Vec3) : List Vec3 :=
  List.insertionSort (fun a b => angOf b ≤ angOf a) l

/-- Python `max(l, key=snd)` (first maximal element wins ties). -/
def pyMaxBySnd (l : List (Nat × ℚ)) : Nat × ℚ :=
  match l with
  | [] => (0, 0)
  | p :: rest => rest.foldl (fun best q => if q.2 > best.2 then q else best) p

/-- Python `min(l, key=snd)` (first minimal element wins ties). -/
def pyMinBySnd (l : List (Nat × ℚ)) : Nat × ℚ :=
  match l with
  | [] => (0, 0)
  | p :: rest => rest.foldl (fun best q => if q.2 < best.2 then q else best) p

/-- The canonical ordering of the half: with at least two centerline
vertices, `[top] + angularly sorted sides + [bottom]`; otherwise the
angularly sorted whole half. -/
noncomputable def orderedHalf (hft : List Vec3) : List Vec3 :=
  let ci := center_indices hft
  if 2 ≤ ci.length then
    let cl := ci.map (fun i => (i, (hft.getD i (0, 0, 0)).2.1))
    let top_i := (pyMaxBySnd cl).1
    let bot_i := (pyMinBySnd cl).1
    let top := hft.getD top_i (0, 0, 0)
    let bottom := hft.getD bot_i (0, 0, 0)
    let side := (hft.enum.filter (fun p => !(p.1 == top_i || p.1 == bot_i))).map Prod.snd
    top :: (sortByAngDesc side ++ [bottom])
  else
    sortByAngDesc hft

/-- The nine left-half slots: `ordered[j]` (last entry repeated when the
half is short), each component snapped to zero below `eps`. -/
noncomputable def left_ring (ordered : List Vec3) : List Vec3 :=
  (List.range 9).map (fun j =>
    let v := if j < ordered.length then ordered.getD j (0, 0, 0) else ordered.getLastD (0, 0, 0)
    (snapE v.1, snapE v.2.1, snapE v.2.2))

/-- Mid-station processing: positive half, 5..9 size check, canonical
ordering, nine left slots, and the x-mirrored nine right slots. Returns
the 18-slot ring and the half size (`n_half`). -/
noncomputable def mid_ring (station_verts_m : List Vec3) : Except String (List Vec3 × Nat) :=
  let hr := half_raw station_verts_m
  let n_half := hr.length
  if ¬(5 ≤ n_half ∧ n_half ≤ 9) then .error "half-ring count out of 5..9 bounds"
  else
    let lr := left_ring (orderedHalf (hr.map toFeet))
    .ok (lr ++ lr.map (fun v => (snapE (-v.1), v.2.1, v.2.2)), n_half)

/-- The per-station branch of `build_pm_rings_for_mesh`: single-vertex
stations broadcast the snapped feet coordinates with x = 0 into all 18
slots; larger stations go through `mid_ring`. -/
noncomputable def station_ring (verts_local : List Vec3) (station : List Nat) :
    Except String (List Vec3 × Nat) :=
  if station.length = 1 then
    let v := verts_local.getD (station.headD 0) (0, 0, 0)
    .ok (List.replicate 18 ((0 : ℚ), snapE (v.2.1 * FT_PER_M), snapE (v.2.2 * FT_PER_M)), 0)
  else
    mid_ring (station.map (fun idx => verts_local.getD idx (0, 0, 0)))

/-! ### Topology builder (adjacency + BFS layering) -/

/-- Add to a duplicate-free list (set membership is what matters). -/
def insertUniq (x : Nat) (l : List Nat) : List Nat := if l.contains x then l else l ++ [x]

/-- `neighbors[a].add(bb)`. -/
def addNbr (nb : Nat → List Nat) (a bb : Nat) : Nat → List Nat :=
  fun v => if v = a then insertUniq bb (nb a) else nb v

/-- Consecutive vertex pairs of a face including the wrap-around edge. -/
def facePairs (face : List Nat) : List (Nat × Nat) :=
  if face.length < 2 then []
  else (List.range face.length).map (fun i => (face.getD i 0, face.getD ((i + 1) % face.length) 0))

/-- `cis_bodies2pm_working.build_vertex_adjacency` (self-edges dropped). -/
def build_vertex_adjacency (_num_verts : Nat) (faces : List (List Nat)) : Nat → List Nat :=
  faces.foldl (fun nb face =>
    (facePairs face).foldl (fun nb e =>
      if e.1 = e.2 then nb else addNbr (addNbr nb e.1 e.2) e.2 e.1) nb)
    (fun _ => [])

/-- Unvisited neighbours of the frontier, in first-discovery order. -/
def bfsNext (nb : Nat → List Nat) (frontier visited : List Nat) : List Nat :=
  frontier.foldl (fun acc v =>
    (nb v).foldl (fun acc u =>
      if visited.contains u || frontier.contains u || acc.contains u then acc else acc ++ [u])
      acc) []

/-- Layered BFS: layer `d` is exactly the set of vertices at BFS hop
distance `d` from the root (the textbook characterization of the
`deque`-based BFS in `compute_topological_layers`). -/
def bfsLayersAux (nb : Nat → List Nat) : Nat → List Nat → List Nat → List (List Nat)
  | 0, _, _ => []
  | fuel + 1, frontier, visited =>
    if frontier.isEmpty then []
    else frontier :: bfsLayersAux nb fuel (bfsNext nb frontier visited) (visited ++ frontier)

/-- All BFS distance layers from `nose` (fuel `num_verts + 1` suffices:
layers are disjoint, nonempty subsets of the vertex indices). -/
def bfsLayers (nb : Nat → List Nat) (num_verts nose : Nat) : List (List Nat) :=
  bfsLayersAux nb (num_verts + 1) [nose] []

/-- BFS distance of a vertex (`None` when unreachable, the `dist` dict). -/
def distOf (layers : List (List Nat)) (v : Nat) : Option Nat :=
  layers.findIdx? (fun l => l.contains v)

/-- `nose = min(range(len(verts)), key=z)` (first minimal index). -/
def noseIdx (verts : List Vec3) : Nat :=
  match verts.enum with
  | [] => 0
  | p :: rest => (rest.foldl (fun best q => if q.2.2.2 < best.2.2.2 then q else best) p).1

/-- `tail = max(range(len(verts)), key=z)` (first maximal index). -/
def tailIdx (verts : List Vec3) : Nat :=
  match verts.enum with
  | [] => 0
  | p :: rest => (rest.foldl (fun best q => if q.2.2.2 > best.2.2.2 then q else best) p).1

/-- The mid-station loop of `build_station_vertex_groups`: walk the
distances in ascending order, skip the nose and tail layers, fail on any
layer outside 8..16 vertices. -/
def midLayersE (layers : List (List Nat)) (tail_d : Nat) :
    List Nat → List (List Nat) → Except String (List (List Nat))
  | [], acc => .ok acc
  | d :: rest, acc =>
    if d = 0 || d = tail_d then midLayersE layers tail_d rest acc
    else
      let ring := layers.getD d []
      if ring.length = 0 then midLayersE layers tail_d rest acc
      else if 8 ≤ ring.length ∧ ring.length ≤ 16 then midLayersE layers tail_d rest (acc ++ [ring])
      else .error "Distance layer size out of the expected 8..16 bounds"

/-- `cis_bodies2pm_working.build_station_vertex_groups`. The Python
`dist[tail_candidate]` lookup raises `KeyError` for an unreachable tail;
an empty vertex list makes `min()` raise. Both are modelled as errors. -/
def build_station_vertex_groups (verts : List Vec3) (nb : Nat → List Nat)
    (max_stations : Nat := 20) : Except String (List (List Nat)) :=
  if verts.isEmpty then .error "min() arg is an empty sequence"
  else
    let nose := noseIdx verts
    let tail := tailIdx verts
    let layers := bfsLayers nb verts.length nose
    match distOf layers tail with
    | none => .error "KeyError: tail vertex was not reached by the BFS"
    | some tail_d =>
      (midLayersE layers tail_d (List.range layers.length) [[nose]]).bind (fun sts =>
        let tail_bucket := layers.getD tail_d []
        if tail_bucket.length ≠ 1 then .error "Tail distance layer size is not 1"
        else
          let sts := sts ++ [tail_bucket]
          if sts.length > max_stations then .error "Too many stations"
          else .ok sts)

/-- The lateral center `(min_x + max_x) / 2` of a vertex list. -/
def centerXOf (verts_m : List Vec3) : ℚ :=
  let xs := verts_m.map (fun v => v.1)
  (xs.foldl min (xs.headD 0) + xs.foldl max (xs.headD 0)) / 2

/-- The recentered local vertices `(x - center_x, y, z)`. -/
def recenterX (verts_m : List Vec3) : List Vec3 :=
  verts_m.map (fun v => (v.1 - centerXOf verts_m, v.2.1, v.2.2))

/-- `cis_bodies2pm_working.build_pm_rings_for_mesh`: recenter on x, build
adjacency, layer by BFS, and canonicalize every station into a ring.
Returns `(part_x_ft, rings, half_n_max)`. -/
noncomputable def build_pm_rings_for_mesh (verts_m : List Vec3) (faces : List (List Nat)) :
    Except String (ℚ × List (List Vec3) × Nat) :=
  if verts_m.length = 0 then .ok (0, [], 0)
  else
    let part_x_ft := centerXOf verts_m * FT_PER_M
    let verts_local := recenterX verts_m
    let nb := build_vertex_adjacency verts_m.length faces
    (build_station_vertex_groups verts_local nb 20).bind (fun svg =>
      (svg.foldl
        (fun (acc : Except String (List (List Vec3) × Nat)) station =>
          acc.bind (fun rh =>
            (station_ring verts_local station).map (fun rn => (rh.1 ++ [rn.1], max rh.2 rn.2))))
        (.ok ([], 0))).map (fun rh => (part_x_ft, rh.1, rh.2)))

/-! ### Template-driven body block builder and the run pipeline -/

/-- A group loaded from the OBJ file: local vertices plus remapped faces. -/
structure ObjGroup where
  verts_m : List Vec3
  faces : List (List Nat)
deriving DecidableEq

instance : Nonempty ObjGroup := ⟨⟨[], []⟩⟩

instance : Nonempty (Line × ObjGroup) := ⟨([], ⟨[], []⟩)⟩

/-- One processed body (`bodies` dict of `build_bodies_from_obj`). -/
structure BodyData where
  body_index : Int
  group_name : Line
  part_x_ft : ℚ
  part_rad_ft : ℚ
  rings : List (List Vec3)
  half_n_max : Nat
  pm_name : Line := []
deriving Inhabited

/-- One GUI mapping row (`mesh_rows`). -/
structure MeshRow where
  mesh_name : Line
  body_index : Int
  pm_name : Line

def dropPfx (p l : Line) : Option Line :=
  if pyStarts l p then some (l.drop p.length) else none

def takeNum (l : Line) : Option (Nat × Line) :=
  let ds := l.takeWhile Char.isDigit
  if ds.isEmpty then none else some (digitsToNat ds, l.dropWhile Char.isDigit)

def expectChar (c : Char) : Line → Option Line
  | x :: rest => if x = c then some rest else none
  | [] => none

/-- The regex `^P _body/[^/]+/_geo_xyz/(\d+),(\d+),(\d+)\s+(-?\d+\.\d+)$`
(`GEO_RE`), returning the `(i, j, k)` triple on a match. -/
def parseGeoLine (l : Line) : Option (Nat × Nat × Nat) :=
  (dropPfx "P _body/".data l).bind (fun cs =>
    let seg := cs.takeWhile (fun c => !(c == '/'))
    if seg.isEmpty then none
    else
      (dropPfx "/_geo_xyz/".data (cs.dropWhile (fun c => !(c == '/')))).bind (fun cs =>
        (takeNum cs).bind (fun p1 =>
          (expectChar ',' p1.2).bind (fun cs =>
            (takeNum cs).bind (fun p2 =>
              (expectChar ',' p2.2).bind (fun cs =>
                (takeNum cs).bind (fun p3 =>
                  let ws := p3.2.takeWhile pyIsSpace
                  if ws.isEmpty then none
                  else
                    let cs := p3.2.dropWhile pyIsSpace
                    let cs := match cs with
                      | '-' :: r => r
                      | r => r
                    (takeNum cs).bind (fun p4 =>
                      (expectChar '.' p4.2).bind (fun cs =>
                        (takeNum cs).bind (fun p5 =>
                          if p5.2.isEmpty then some (p1.1, p2.1, p3.1) else none))))))))))

/-- Python `str(i)` for an integer. -/
def intChars (i : Int) : Line := if i < 0 then '-' :: natChars i.natAbs else natChars i.toNat

/-- `{val:.9f}` for an exact rational (nine fractional digits, half-up;
bit-level float rounding is out of scope of the rational model). -/
def fmt9 (q : ℚ) : Line :=
  let sign : Line := if q < 0 then ['-'] else []
  let n : Nat := (|q| * 1000000000 + 1 / 2).floor.toNat
  let fpChars := natChars (n % 1000000000)
  sign ++ natChars (n / 1000000000) ++ ['.'] ++
    List.replicate (9 - fpChars.length) '0' ++ fpChars

/-- Python `pat in s` (substring test). -/
def containsSub (pat : Line) : Line → Bool
  | [] => pat.isEmpty
  | l@(_ :: rest) => pyStarts l pat || containsSub pat rest

/-- Python `s.replace(pat, rep)`, left to right, for a nonempty pattern. -/
def replaceSub (pat rep : Line) : Line → Line
  | [] => []
  | c :: rest =>
    if h : pyStarts (c :: rest) pat ∧ ¬pat.isEmpty then
      rep ++ replaceSub pat rep ((c :: rest).drop pat.length)
    else c :: replaceSub pat rep rest
  termination_by l => l.length
  decreasing_by
    · have hp : 0 < pat.length := by
        cases pat with
        | nil => simp at h
        | cons a as => simp
      simp only [List.length_drop, List.length_cons]
      omega
    · simp

/-- `cis_bodies2pm_working.build_body_block_from_template`: infer the grid
shape from the template's geometry lines, pad the rings to it, then map
every template line — geometry lines get our values, the header params we
control get our scalars, any other `_body/b/` line gets its index token
rewritten, all remaining lines pass through unchanged. -/
def build_body_block_from_template (body : BodyData) (b : Int) (template_lines : List Line) :
    List Line :=
  let scan := template_lines.foldl
    (fun mm line =>
      match parseGeoLine line with
      | some t => (max mm.1 t.1, max mm.2 t.2.1)
      | none => mm) ((0 : Nat), (0 : Nat))
  let total_stations := scan.1 + 1
  let points_per_ring := scan.2 + 1
  let padded := (body.rings.take total_stations).map (fun ring =>
    ring ++ List.replicate (points_per_ring - ring.length) ((0 : ℚ), 0, 0))
  let padded := padded ++
    List.replicate (total_stations - padded.length) (List.replicate points_per_ring ((0 : ℚ), 0, 0))
  let r_dim := 2 * body.half_n_max
  let s_dim := body.rings.length
  template_lines.map (fun line =>
    let stripped := pyStrip line
    match parseGeoLine stripped with
    | some t =>
      let v := (padded.getD t.1 []).getD t.2.1 (0, 0, 0)
      let val := if t.2.2 = 0 then v.1 else if t.2.2 = 1 then v.2.1 else v.2.2
      "P _body/".data ++ intChars b ++ "/_geo_xyz/".data ++ natChars t.1 ++ [','] ++
        natChars t.2.1 ++ [','] ++ natChars t.2.2 ++ [' '] ++ fmt9 val
    | none =>
      if pyStarts stripped "P _body/b/_part_x".data then
        "P _body/".data ++ intChars b ++ "/_part_x ".data ++ fmt9 body.part_x_ft
      else if pyStarts stripped "P _body/b/_part_y".data then
        "P _body/".data ++ intChars b ++ "/_part_y 0.000000000".data
      else if pyStarts stripped "P _body/b/_part_z".data then
        "P _body/".data ++ intChars b ++ "/_part_z 0.000000000".data
      else if pyStarts stripped "P _body/b/_part_rad".data then
        "P _body/".data ++ intChars b ++ "/_part_rad ".data ++ fmt9 body.part_rad_ft
      else if pyStarts stripped "P _body/b/_r_dim".data then
        "P _body/".data ++ intChars b ++ "/_r_dim ".data ++ natChars r_dim
      else if pyStarts stripped "P _body/b/_s_dim".data then
        "P _body/".data ++ intChars b ++ "/_s_dim ".data ++ natChars s_dim
      else if pyStarts stripped "P _body/b/_descrip".data then
        "P _body/".data ++ intChars b ++ "/_descrip ".data ++ body.pm_name
      else if containsSub "_body/b/".data stripped then
        replaceSub "_body/b/".data ("_body/".data ++ intChars b ++ ['/']) stripped
      else line)

def priority_names : List Line :=
  ["Fuselage_Chieftain_fuse_only_Mesh.0001".data,
   "LF_Cowling_Cylinder.001".data,
   "RT_Cowling_Cylinder.002".data]

/-- The mapping order of `build_bodies_from_obj`: priority names present
in the OBJ first, then the remaining group names in file order. -/
def bodyOrder (groups : List (Line × ObjGroup)) : List Line :=
  let names := groups.map Prod.fst
  let pri := priority_names.filter (fun n => names.contains n)
  pri ++ names.filter (fun n => !pri.contains n)

/-- Python `groups[name]` (group names are unique dict keys). -/
def lookupGroup (groups : List (Line × ObjGroup)) (name : Line) : ObjGroup :=
  ((groups.find? (fun p => p.1 == name)).map Prod.snd).getD ⟨[], []⟩

/-- `cis_bodies2pm_working.build_bodies_from_obj`: process groups in
mapping order, skipping face-less and sub-10-vertex groups; any exception
from `build_pm_rings_for_mesh` aborts the whole build. -/
noncomputable def build_bodies_from_obj (groups : List (Line × ObjGroup)) :
    Except String (List BodyData) :=
  (bodyOrder groups).enum.foldl
    (fun (acc : Except String (List BodyData)) p =>
      acc.bind (fun bodies =>
        let g := lookupGroup groups p.2
        if g.faces.isEmpty then .ok bodies
        else if g.verts_m.length < 10 then .ok bodies
        else
          (build_pm_rings_for_mesh g.verts_m g.faces).map (fun r =>
            if r.2.1.isEmpty then bodies
            else
              bodies ++
                [{ body_index := (p.1 : Int), group_name := p.2, part_x_ft := r.1,
                   part_rad_ft := compute_part_rad_from_rings r.2.1 1, rings := r.2.1,
                   half_n_max := r.2.2 }])))
    (.ok [])

/-- `cis_bodies2pm_working.generate_bodies_and_rewrite_acf` (pure core):
build all bodies, map them by the GUI rows, require contiguous indices,
emit every block from the template and splice them into the target file.
`none` models every early `return` that leaves the output file unwritten. -/
noncomputable def generate_bodies_and_rewrite_acf (groups : List (Line × ObjGroup))
    (acf_lines : List Line) (template_lines : List Line) (mesh_rows : List MeshRow) :
    Option (List Line) :=
  match build_bodies_from_obj groups with
  | .error _ => none
  | .ok bodies =>
    let by_name : Line → Option BodyData := fun n => bodies.reverse.find? (fun b => b.group_name == n)
    let bbi := mesh_rows.foldl
      (fun (m : List (Int × BodyData)) row =>
        let pm := if (pyStrip row.pm_name).isEmpty then row.mesh_name else pyStrip row.pm_name
        match by_name row.mesh_name with
        | none => m
        | some src =>
          if (m.find? (fun q => q.1 == row.body_index)).isSome then m
          else m ++ [(row.body_index, { src with body_index := row.body_index, pm_name := pm })])
      []
    if bbi.isEmpty then none
    else
      let indices := List.insertionSort (fun a b : Int => a ≤ b) (bbi.map Prod.fst)
      let expected := (List.range bbi.length).map (fun n => (n : Int))
      if indices ≠ expected then none
      else
        let ordered_bodies := indices.map (fun i =>
          ((bbi.find? (fun q => q.1 == i)).map Prod.snd).getD default)
        let all_lines := ordered_bodies.enum.flatMap (fun p =>
          build_body_block_from_template { p.2 with body_index := (p.1 : Int) } (p.1 : Int)
            template_lines)
        match rewrite_acf_bodies acf_lines all_lines with
        | .error _ => none
        | .ok out => some out

/-- The centerline vertices of a half (the vertices `center_indices`
points at). -/
def centerVerts (hft : List Vec3) : List Vec3 :=
  (center_indices hft).map (fun i => hft.getD i (0, 0, 0))

/-- Spec-side horizontal extent of a ring list: the largest `|x|`/`|y|`
over every ring vertex. -/
def ringsHorizMax (rings : List (List Vec3)) : ℚ :=
  ((rings.flatMap id).map (fun v => max |v.1| |v.2.1|)).foldl max 0

/-- Spec-side horizontal extent of a vertex list. -/
def vertsHorizMax (verts : List Vec3) : ℚ :=
  (verts.map (fun v => max |v.1| |v.2.1|)).foldl max 0

/-! ## Theorems -/

/-! ### C7: emission print order -/

lemma pmFold (n : ℕ) :
    ∀ (ds base : List ℕ), ds.Nodup → (∀ i ∈ ds, i ∉ base) →
      ds.foldl (fun acc i => if i < n && !acc.contains i then acc ++ [i] else acc) base
        = base ++ ds.filter (fun i => decide (i < n)) := by
  intro ds
  induction ds with
  | nil => intro base _ _; simp
  | cons d rest ih =>
    intro base hnd hmem
    have hd : d ∉ base := hmem d (by simp)
    by_cases hlt : d < n
    · have hstep :
          List.foldl (fun acc i => if i < n && !acc.contains i then acc ++ [i] else acc) base
              (d :: rest) =
            List.foldl (fun acc i => if i < n && !acc.contains i then acc ++ [i] else acc)
              (base ++ [d]) rest := by
        simp [hlt, hd]
      rw [hstep, ih (base ++ [d]) hnd.of_cons]
      · simp [List.filter_cons, hlt]
      · intro i hi
        simp only [List.mem_append, List.mem_singleton]
        push_neg
        refine ⟨hmem i (by simp [hi]), ?_⟩
        intro hid
        exact (List.nodup_cons.mp hnd).1 (hid ▸ hi)
    · have hstep :
          List.foldl (fun acc i => if i < n && !acc.contains i then acc ++ [i] else acc) base
              (d :: rest) =
            List.foldl (fun acc i => if i < n && !acc.contains i then acc ++ [i] else acc)
              base rest := by
        simp [hlt]
      rw [hstep, ih base hnd.of_cons (fun i hi => hmem i (by simp [hi]))]
      simp [List.filter_cons, hlt]

lemma pmPrintOrder_eq (n : ℕ) :
    pmPrintOrder n =
      ((if 0 < n then [0] else []) ++ (if 1 < n then [1] else []) ++ List.range' 10 (n - 10)) ++
        [2, 3, 4, 5, 6, 7, 8, 9].filter (fun i => decide (i < n)) := by
  unfold pmPrintOrder
  have hbase :
      (if 0 < n then [0] else []) ++ (if 1 < n then [1] else []) ++ List.range' 10 (n - 10) =
        ((if n > 0 then [0] else []) ++ (if n > 1 then ((if n > 0 then [0] else []) ++ [1])
          else (if n > 0 then [0] else [])).drop (if n > 0 then [0] else []).length
          ++ List.range' 10 (n - 10)) := by
    by_cases h0 : 0 < n <;> by_cases h1 : 1 < n <;> simp [h0, h1] <;> omega
  rw [pmFold]
  · by_cases h0 : 0 < n <;> by_cases h1 : 1 < n
    · simp [h0, h1]
    · simp [h0, h1]
    · omega
    · simp [h0, h1]
  · decide
  · intro i hi
    fin_cases hi <;>
      · by_cases h0 : 0 < n <;> by_cases h1 : 1 < n <;>
          simp [h0, h1, List.mem_range'_1] <;> omega

lemma pmPrintOrder_high (n : ℕ) (h : 10 ≤ n) :
    pmPrintOrder n = [0, 1] ++ List.range' 10 (n - 10) ++ [2, 3, 4, 5, 6, 7, 8, 9] := by
  rw [pmPrintOrder_eq]
  have h0 : 0 < n := by omega
  have h1 : 1 < n := by omega
  have hf : [2, 3, 4, 5, 6, 7, 8, 9].filter (fun i => decide (i < n)) =
      [2, 3, 4, 5, 6, 7, 8, 9] := by
    apply List.filter_eq_self.mpr
    intro a ha
    fin_cases ha <;> simp <;> omega
  rw [hf]
  simp [h0, h1]

lemma pmPrintOrder_perm (n : ℕ) : (pmPrintOrder n).Perm (List.range n) := by
  by_cases h : 10 ≤ n
  · rw [pmPrintOrder_high n h]
    have hsplit : List.range n = [0, 1] ++ [2, 3, 4, 5, 6, 7, 8, 9] ++ List.range' 10 (n - 10) := by
      have h10 : List.range' 0 10 ++ List.range' 10 (n - 10) = List.range' 0 n := by
        have := List.range'_append 0 10 (n - 10) 1
        simp at this
        rw [this]
        congr 1
        omega
      have : List.range n = List.range' 0 10 ++ List.range' 10 (n - 10) := by
        rw [h10, List.range_eq_range']
      rw [this]
      rfl
    rw [hsplit, List.append_assoc, List.append_assoc]
    exact List.Perm.append_left [0, 1] List.perm_append_comm
  · have hn : n < 11 := by omega
    interval_cases n <;> decide

/-- C7: for every count `n` the print-order functions return a permutation
of `0..n-1`, and for `n ≥ 11` the order is `0, 1, 10, 11, …, n-1, 2 … 9`. -/
theorem c7_print_order_permutation (n : ℕ) :
    (pm_i_print_order n).Perm (List.range n) ∧ (pm_j_print_order n).Perm (List.range n) ∧
      (11 ≤ n →
        pm_i_print_order n = [0, 1] ++ List.range' 10 (n - 10) ++ [2, 3, 4, 5, 6, 7, 8, 9] ∧
        pm_j_print_order n = [0, 1] ++ List.range' 10 (n - 10) ++ [2, 3, 4, 5, 6, 7, 8, 9]) := by
  refine ⟨pmPrintOrder_perm n, pmPrintOrder_perm n, fun h11 => ?_⟩
  have h := pmPrintOrder_high n (by omega)
  exact ⟨h, h⟩

/-- C7 witness: the theorem applied at the concrete count 12. -/
theorem c7_witness :
    (pm_i_print_order 12).Perm (List.range 12) ∧ 11 ≤ 12 ∧
      pm_i_print_order 12 = [0, 1] ++ List.range' 10 2 ++ [2, 3, 4, 5, 6, 7, 8, 9] :=
  ⟨(c7_print_order_permutation 12).1, by decide,
    ((c7_print_order_permutation 12).2.2 (by decide)).1⟩

/-! ### C1 / C5: prefix-strip patcher positioning and idempotence -/

lemma replace_body_block_no_match (lines blk : List Line) (b : Nat)
    (hnone : ∀ l ∈ lines, isBodyLine b l = false) :
    replace_body_block lines b blk = lines ++ blk := by
  unfold replace_body_block
  have hk : lines.filter (fun l => !isBodyLine b l) = lines :=
    List.filter_eq_self.mpr (fun l hl => by simp [hnone l hl])
  have hf : lines.findIdx? (fun l => isBodyLine b l) = none :=
    List.findIdx?_eq_none_iff.mpr hnone
  simp [hk, hf]

lemma rewrite_no_body_insert_after_begin (lines blk : List Line) (pb pe : Nat)
    (hm : findMarkers lines = (some pb, some pe)) (hlt : pb < pe)
    (hnb : ∀ idx ∈ List.range' (pb + 1) (pe - (pb + 1)),
      isAnyBodyLine (lines.getD idx []) = false) :
    rewrite_acf_bodies lines blk = .ok (lines.take (pb + 1) ++ blk ++ lines.drop (pb + 1)) := by
  have hno : (List.range' (pb + 1) (pe - (pb + 1))).filter
      (fun idx => isAnyBodyLine (lines.getD idx [])) = [] :=
    List.filter_eq_nil_iff.mpr (fun idx hidx => by rw [hnb idx hidx]; simp)
  unfold rewrite_acf_bodies
  rw [hm]
  dsimp only
  rw [if_neg (Nat.not_le.mpr hlt), hno]
  simp

/-- C1 (corrected): when the addressed block is absent,
`rewrite_acf_bodies` inserts the new lines immediately after the
`PROPERTIES_BEGIN` marker, while `replace_body_block` — which knows no
markers — appends them after all existing lines. -/
theorem c1_missing_block_insertion (lines blk : List Line) (b : Nat) (pb pe : Nat)
    (hnone : ∀ l ∈ lines, isBodyLine b l = false)
    (hm : findMarkers lines = (some pb, some pe)) (hlt : pb < pe)
    (hnb : ∀ idx ∈ List.range' (pb + 1) (pe - (pb + 1)),
      isAnyBodyLine (lines.getD idx []) = false) :
    replace_body_block lines b blk = lines ++ blk ∧
      rewrite_acf_bodies lines blk = .ok (lines.take (pb + 1) ++ blk ++ lines.drop (pb + 1)) :=
  ⟨replace_body_block_no_match lines blk b hnone,
    rewrite_no_body_insert_after_begin lines blk pb pe hm hlt hnb⟩

/-- C1 counterexample: on a document with a properties section and no body-7
line, `replace_body_block` appends the new block at the very end of the
file, not immediately after the start-of-properties marker (slot 2). -/
theorem c1_counterexample :
    replace_body_block
        ["HEADER".data, "PROPERTIES_BEGIN".data, "P _wing/0/x 1".data, "PROPERTIES_END".data] 7
        ["P _body/7/_part_x 0.000000000".data] =
      ["HEADER".data, "PROPERTIES_BEGIN".data, "P _wing/0/x 1".data, "PROPERTIES_END".data] ++
        ["P _body/7/_part_x 0.000000000".data] ∧
      replace_body_block
          ["HEADER".data, "PROPERTIES_BEGIN".data, "P _wing/0/x 1".data, "PROPERTIES_END".data] 7
          ["P _body/7/_part_x 0.000000000".data] ≠
        ["HEADER".data, "PROPERTIES_BEGIN".data] ++ ["P _body/7/_part_x 0.000000000".data] ++
          ["P _wing/0/x 1".data, "PROPERTIES_END".data] := by
  constructor
  · decide
  · decide

/-- C1 witness: the (corrected) theorem applied to a concrete document. -/
theorem c1_witness :
    (∀ l ∈ ["A".data, "PROPERTIES_BEGIN".data, "X Y".data, "PROPERTIES_END".data], isBodyLine 7 l = false) ∧
      findMarkers ["A".data, "PROPERTIES_BEGIN".data, "X Y".data, "PROPERTIES_END".data] =
        (some 1, some 3) ∧
      replace_body_block ["A".data, "PROPERTIES_BEGIN".data, "X Y".data, "PROPERTIES_END".data] 7
          ["P _body/7/_s_dim 4".data] =
        ["A".data, "PROPERTIES_BEGIN".data, "X Y".data, "PROPERTIES_END".data] ++
          ["P _body/7/_s_dim 4".data] :=
  ⟨by decide, by decide,
    (c1_missing_block_insertion
      ["A".data, "PROPERTIES_BEGIN".data, "X Y".data, "PROPERTIES_END".data]
      ["P _body/7/_s_dim 4".data] 7 1 3 (by decide) (by decide) (by decide) (by decide)).1⟩

/-- C5 (corrected): `replace_body_block` is idempotent on every document
whose lines for the addressed body form one contiguous run (`A ++ B ++ C`
with the block `B` flanked by block-free segments): patching with the
current block returns the document unchanged. -/
theorem c5_idempotent_on_contiguous_block (A B C : List Line) (b : Nat)
    (hA : ∀ l ∈ A, isBodyLine b l = false) (hB : ∀ l ∈ B, isBodyLine b l = true)
    (hC : ∀ l ∈ C, isBodyLine b l = false) :
    replace_body_block (A ++ B ++ C) b (currentBlock (A ++ B ++ C) b) = A ++ B ++ C := by
  have hcur : currentBlock (A ++ B ++ C) b = B := by
    unfold currentBlock
    rw [List.append_assoc, List.filter_append, List.filter_append]
    rw [List.filter_eq_nil_iff.mpr (fun l hl => by rw [hA l hl]; simp),
      List.filter_eq_self.mpr hB,
      List.filter_eq_nil_iff.mpr (fun l hl => by rw [hC l hl]; simp)]
    simp
  have hkept : (A ++ B ++ C).filter (fun l => !isBodyLine b l) = A ++ C := by
    rw [List.append_assoc, List.filter_append, List.filter_append]
    rw [List.filter_eq_self.mpr (fun l hl => by rw [hA l hl]; simp),
      List.filter_eq_nil_iff.mpr (fun l hl => by rw [hB l hl]; simp),
      List.filter_eq_self.mpr (fun l hl => by rw [hC l hl]; simp)]
    simp
  rw [hcur]
  unfold replace_body_block
  rw [hkept]
  dsimp only
  by_cases hBe : B = []
  · subst hBe
    have hf : (A ++ [] ++ C).findIdx? (fun l => isBodyLine b l) = none := by
      apply List.findIdx?_eq_none_iff.mpr
      intro l hl
      rcases (by simpa using hl : l ∈ A ∨ l ∈ C) with h | h
      · exact hA l h
      · exact hC l h
    rw [hf]
    simp
  · obtain ⟨hd, tl, hBc⟩ := List.exists_cons_of_ne_nil hBe
    have hf : (A ++ B ++ C).findIdx? (fun l => isBodyLine b l) = some A.length := by
      rw [List.append_assoc, List.findIdx?_append,
        List.findIdx?_eq_none_iff.mpr (fun l hl => hA l hl)]
      rw [List.findIdx?_append, hBc, List.findIdx?_cons]
      rw [hB hd (by simp [hBc])]
      simp
    rw [hf]
    dsimp only
    have hmin : min A.length (A ++ C).length = A.length := by
      simp [List.length_append]
    rw [hmin, List.take_left, List.drop_left]

/-- C5 counterexample: on a document whose body-0 lines are not
contiguous, patching with the exact current block reorders the document
instead of returning it byte-identically. -/
theorem c5_counterexample :
    replace_body_block ["P _body/0/a 1".data, "X".data, "P _body/0/b 2".data] 0
        (currentBlock ["P _body/0/a 1".data, "X".data, "P _body/0/b 2".data] 0) ≠
      ["P _body/0/a 1".data, "X".data, "P _body/0/b 2".data] := by
  decide

/-- C5 witness: the theorem applied to a concrete contiguous document. -/
theorem c5_witness :
    (∀ l ∈ ["HDR".data], isBodyLine 0 l = false) ∧
      (∀ l ∈ ["P _body/0/a 1".data, "P _body/0/b 2".data], isBodyLine 0 l = true) ∧
      (∀ l ∈ ["TAIL".data], isBodyLine 0 l = false) ∧
      replace_body_block
          (["HDR".data] ++ ["P _body/0/a 1".data, "P _body/0/b 2".data] ++ ["TAIL".data]) 0
          (currentBlock
            (["HDR".data] ++ ["P _body/0/a 1".data, "P _body/0/b 2".data] ++ ["TAIL".data]) 0) =
        ["HDR".data] ++ ["P _body/0/a 1".data, "P _body/0/b 2".data] ++ ["TAIL".data] :=
  ⟨by decide, by decide, by decide,
    c5_idempotent_on_contiguous_block ["HDR".data]
      ["P _body/0/a 1".data, "P _body/0/b 2".data] ["TAIL".data] 0
      (by decide) (by decide) (by decide)⟩

/-! ### C4: frame preservation of both patch strategies -/

lemma replace_body_block_frame (lines blk : List Line) (b : Nat)
    (hblk : ∀ l ∈ blk, isBodyLine b l = true) :
    (replace_body_block lines b blk).filter (fun l => !isBodyLine b l) =
      lines.filter (fun l => !isBodyLine b l) := by
  have hb : blk.filter (fun l => !isBodyLine b l) = [] :=
    List.filter_eq_nil_iff.mpr (fun l hl => by rw [hblk l hl]; simp)
  unfold replace_body_block
  dsimp only
  rw [List.filter_append, List.filter_append, hb, List.append_nil, ← List.filter_append,
    List.take_append_drop, List.filter_filter]
  simp

lemma pairwise_head_le_getLastD (a : Nat) (rest : List Nat) (d : Nat)
    (hp : (a :: rest).Pairwise (· < ·)) : a ≤ (a :: rest).getLastD d := by
  have hne : a :: rest ≠ [] := by simp
  have hmem : (a :: rest).getLast hne ∈ a :: rest := List.getLast_mem hne
  have hlast : (a :: rest).getLastD d = (a :: rest).getLast hne := by
    rw [List.getLastD_eq_getLast?, List.getLast?_eq_getLast (a :: rest) hne]
    rfl
  rw [hlast]
  rcases List.mem_cons.mp hmem with h | h
  · omega
  · exact le_of_lt (List.rel_of_pairwise_cons hp h)

lemma rewrite_acf_bodies_frame (lines blk : List Line) (pb pe : Nat)
    (hm : findMarkers lines = (some pb, some pe)) (hlt : pb < pe)
    (hblk : ∀ l ∈ blk, isAnyBodyLine l = true)
    (hcont : ∀ i1 i2 i3 : Nat, pb < i1 → i3 < pe → i1 ≤ i2 → i2 ≤ i3 →
      isAnyBodyLine (lines.getD i1 []) = true → isAnyBodyLine (lines.getD i3 []) = true →
      isAnyBodyLine (lines.getD i2 []) = true) :
    ∃ out, rewrite_acf_bodies lines blk = .ok out ∧
      out.filter (fun l => !isAnyBodyLine l) = lines.filter (fun l => !isAnyBodyLine l) := by
  unfold rewrite_acf_bodies
  rw [hm]
  dsimp only
  rw [if_neg (Nat.not_le.mpr hlt)]
  set B := (List.range' (pb + 1) (pe - (pb + 1))).filter
    (fun idx => isAnyBodyLine (lines.getD idx [])) with hBdef
  have hfilterBlk : blk.filter (fun l => !isAnyBodyLine l) = [] :=
    List.filter_eq_nil_iff.mpr (fun l hl => by rw [hblk l hl]; simp)
  by_cases hBe : B = []
  · refine ⟨_, rfl, ?_⟩
    rw [hBe]
    simp only [List.headD_nil, List.getLastD_nil]
    rw [List.filter_append, List.filter_append, hfilterBlk]
    rw [List.append_nil, ← List.filter_append, List.take_append_drop]
  · obtain ⟨a, rest, hBc⟩ := List.exists_cons_of_ne_nil hBe
    refine ⟨_, rfl, ?_⟩
    have hpw : B.Pairwise (· < ·) :=
      List.Pairwise.sublist (List.filter_sublist _) (List.pairwise_lt_range' _ _ 1)
    have hstart : B.headD (pb + 1) = a := by rw [hBc]; rfl
    have hend : B.getLastD pb = (a :: rest).getLastD pb := by rw [hBc]
    set e := (a :: rest).getLastD pb with hedef
    have hae : a ≤ e := pairwise_head_le_getLastD a rest pb (hBc ▸ hpw)
    have haB : a ∈ B := by rw [hBc]; simp
    have heB : e ∈ B := by
      rw [hBc, hedef]
      have : (a :: rest).getLastD pb = (a :: rest).getLast (by simp) := by
        rw [List.getLastD_eq_getLast?, List.getLast?_eq_getLast _ (by simp)]
        rfl
      rw [this]
      exact List.getLast_mem _
    have haMem := List.mem_filter.mp (hBdef ▸ haB)
    have heMem := List.mem_filter.mp (hBdef ▸ heB)
    have haRange := List.mem_range'_1.mp haMem.1
    have heRange := List.mem_range'_1.mp heMem.1
    -- every line with index in [a, e] is a body line
    have hmid : ∀ t, t < e + 1 - a → isAnyBodyLine (lines.getD (a + t) []) = true := by
      intro t ht
      exact hcont a (a + t) e (by omega) (by omega) (by omega) (by omega)
        (by simpa using haMem.2) (by simpa using heMem.2)
    rw [hstart, hend]
    -- decompose lines around the replaced span
    have hdecomp : lines = lines.take a ++ ((lines.drop a).take (e + 1 - a) ++ lines.drop (e + 1)) := by
      have h1 : (lines.drop a).drop (e + 1 - a) = lines.drop (e + 1) := by
        rw [List.drop_drop]
        congr 1
        omega
      conv_lhs => rw [← List.take_append_drop a lines, ← List.take_append_drop (e + 1 - a) (lines.drop a)]
      rw [h1]
    have hmidfilter : ((lines.drop a).take (e + 1 - a)).filter (fun l => !isAnyBodyLine l) = [] := by
      apply List.filter_eq_nil_iff.mpr
      intro l hl
      obtain ⟨t, htlen, hteq⟩ := List.getElem_of_mem hl
      have htlt : t < e + 1 - a := lt_of_lt_of_le htlen (by simp [List.length_take])
      have hbound : a + t < lines.length := by
        have := htlen
        simp [List.length_take, List.length_drop] at this
        omega
      have hval : ((lines.drop a).take (e + 1 - a))[t] = lines[a + t] := by
        rw [List.getElem_take, List.getElem_drop]
      have : lines.getD (a + t) [] = l := by
        rw [List.getD_eq_getElem lines [] hbound, ← hval, hteq]
      rw [← this]
      rw [hmid t htlt]
      simp
    conv_rhs => rw [hdecomp]
    rw [List.filter_append, List.filter_append, List.filter_append, List.filter_append,
      hfilterBlk, hmidfilter]
    simp

/-- C4 (corrected): `replace_body_block` preserves every line outside the
addressed block, in count and order; `rewrite_acf_bodies` does so on
documents whose `P _body/` lines inside the properties section are
contiguous (interleaved foreign lines there would be dropped with the
replaced span). -/
theorem c4_frame_preservation :
    (∀ (lines blk : List Line) (b : Nat), (∀ l ∈ blk, isBodyLine b l = true) →
      (replace_body_block lines b blk).filter (fun l => !isBodyLine b l) =
        lines.filter (fun l => !isBodyLine b l)) ∧
    (∀ (lines blk : List Line) (pb pe : Nat), findMarkers lines = (some pb, some pe) → pb < pe →
      (∀ l ∈ blk, isAnyBodyLine l = true) →
      (∀ i1 i2 i3 : Nat, pb < i1 → i3 < pe → i1 ≤ i2 → i2 ≤ i3 →
        isAnyBodyLine (lines.getD i1 []) = true → isAnyBodyLine (lines.getD i3 []) = true →
        isAnyBodyLine (lines.getD i2 []) = true) →
      ∃ out, rewrite_acf_bodies lines blk = .ok out ∧
        out.filter (fun l => !isAnyBodyLine l) = lines.filter (fun l => !isAnyBodyLine l)) :=
  ⟨replace_body_block_frame, rewrite_acf_bodies_frame⟩

/-- C4 counterexample: `rewrite_acf_bodies` drops a non-body line that
sits between two body lines of the properties section, so the count of
lines outside the addressed block shrinks. -/
theorem c4_counterexample :
    rewrite_acf_bodies
        ["PROPERTIES_BEGIN".data, "P _body/0/a 1".data, "OTHER".data, "P _body/0/b 2".data,
          "PROPERTIES_END".data] ["P _body/0/c 3".data] =
      .ok ["PROPERTIES_BEGIN".data, "P _body/0/c 3".data, "PROPERTIES_END".data] ∧
      ("OTHER".data ∈
        ["PROPERTIES_BEGIN".data, "P _body/0/a 1".data, "OTHER".data, "P _body/0/b 2".data,
          "PROPERTIES_END".data]) ∧
      ("OTHER".data ∉ ["PROPERTIES_BEGIN".data, "P _body/0/c 3".data, "PROPERTIES_END".data]) := by
  refine ⟨by rfl, by decide, by decide⟩

/-- C4 witness: both frame statements applied at concrete documents. -/
theorem c4_witness :
    ((∀ l ∈ ["P _body/3/q 1".data], isBodyLine 3 l = true) ∧
      (replace_body_block ["K".data, "P _body/3/a 1".data, "L".data] 3
          ["P _body/3/q 1".data]).filter (fun l => !isBodyLine 3 l) =
        (["K".data, "P _body/3/a 1".data, "L".data] : List Line).filter
          (fun l => !isBodyLine 3 l)) ∧
    (findMarkers ["PROPERTIES_BEGIN".data, "P _body/0/a 1".data, "PROPERTIES_END".data] =
        (some 0, some 2) ∧
      ∃ out, rewrite_acf_bodies
          ["PROPERTIES_BEGIN".data, "P _body/0/a 1".data, "PROPERTIES_END".data]
          ["P _body/0/c 3".data] = .ok out ∧
        out.filter (fun l => !isAnyBodyLine l) =
          (["PROPERTIES_BEGIN".data, "P _body/0/a 1".data, "PROPERTIES_END".data] :
            List Line).filter (fun l => !isAnyBodyLine l)) :=
  ⟨⟨by decide,
    c4_frame_preservation.1 ["K".data, "P _body/3/a 1".data, "L".data] ["P _body/3/q 1".data] 3
      (by decide)⟩,
    ⟨by decide,
      c4_frame_preservation.2 ["PROPERTIES_BEGIN".data, "P _body/0/a 1".data, "PROPERTIES_END".data]
        ["P _body/0/c 3".data] 0 2 (by decide) (by decide) (by decide)
        (by
          intro i1 i2 i3 h1 h2 h3 h4 hb1 hb3
          have h12 : i2 = 1 := by omega
          subst h12
          decide)⟩⟩

/-! ### C9: dimension discovery -/

lemma filter_cons_le_one {α : Type} {p : α → Bool} {s : α} {rest : List α}
    (hu : ((s :: rest).filter p).length ≤ 1) (hs : p s = true) :
    ∀ x ∈ rest, p x = false := by
  intro x hx
  by_contra hbad
  have hx' : p x = true := by
    cases hpx : p x
    · exact absurd hpx hbad
    · rfl
  have : x ∈ rest.filter p := List.mem_filter.mpr ⟨hx, hx'⟩
  have hlen : 1 ≤ (rest.filter p).length := List.length_pos.mpr (by
    intro hnil
    rw [hnil] at this
    exact List.not_mem_nil x this)
  rw [List.filter_cons_of_pos hs, List.length_cons] at hu
  omega

lemma readDimsAux_spec (pi pj : Line)
    (hboth : ∀ t : Line, ¬(pyStarts t pi = true ∧ pyStarts t pj = true)) :
    ∀ (lines : List Line) (i0 j0 : Option Int),
      (i0.isSome = true → ∀ s ∈ lines, dimSetter pi s = false) →
      (j0.isSome = true → ∀ s ∈ lines, dimSetter pj s = false) →
      (lines.filter (dimSetter pi)).length ≤ 1 →
      (lines.filter (dimSetter pj)).length ≤ 1 →
      readDimsAux pi pj lines i0 j0 =
        (i0.or (firstDimVal pi lines), j0.or (firstDimVal pj lines)) := by
  intro lines
  induction lines with
  | nil =>
    intro i0 j0 _ _ _ _
    simp [readDimsAux, firstDimVal]
  | cons s rest ih =>
    intro i0 j0 hi0 hj0 hui huj
    by_cases hpi : pyStarts (pyStrip s) pi = true
    · have hpj : pyStarts (pyStrip s) pj = false := by
        cases hx : pyStarts (pyStrip s) pj
        · rfl
        · exact absurd ⟨hpi, hx⟩ (hboth (pyStrip s))
      cases hv : lastTokenInt (pyStrip s) with
      | some v =>
        have hset : dimSetter pi s = true := by simp [dimSetter, hpi, hv]
        have hsetj : dimSetter pj s = false := by simp [dimSetter, hpj]
        have hi0none : i0 = none := by
          cases hi0s : i0 with
          | none => rfl
          | some w =>
            have := hi0 (by simp [hi0s]) s (by simp)
            rw [hset] at this
            exact absurd this (by simp)
        have hrest_pi : ∀ x ∈ rest, dimSetter pi x = false := filter_cons_le_one hui hset
        have hfdv_i : firstDimVal pi (s :: rest) = some v := by
          unfold firstDimVal
          rw [List.find?_cons_of_pos _ hset]
          exact hv
        have hfdv_j : firstDimVal pj (s :: rest) = firstDimVal pj rest := by
          unfold firstDimVal
          rw [List.find?_cons_of_neg _ (by simp [hsetj])]
        subst hi0none
        cases hj0s : j0 with
        | some w =>
          simp [readDimsAux, hpi, hpj, hv, hfdv_i]
        | none =>
          have hstep : readDimsAux pi pj (s :: rest) none none =
              readDimsAux pi pj rest (some v) none := by
            simp [readDimsAux, hpi, hpj, hv]
          have hfiltrest : rest.filter (dimSetter pi) = [] :=
            List.filter_eq_nil_iff.mpr (fun x hx => by simp [hrest_pi x hx])
          have hfindrest : rest.find? (dimSetter pi) = none :=
            List.find?_eq_none.mpr (fun x hx => by simp [hrest_pi x hx])
          rw [hstep, ih (some v) none (fun _ => hrest_pi) (by simp)
            (by rw [hfiltrest]; simp)
            (by rw [List.filter_cons_of_neg (by simp [hsetj])] at huj; exact huj)]
          rw [hfdv_i, hfdv_j]
          simp [firstDimVal, hfindrest]
      | none =>
        have hset : dimSetter pi s = false := by simp [dimSetter, hv]
        have hsetj : dimSetter pj s = false := by simp [dimSetter, hpj]
        have hfdv_i : firstDimVal pi (s :: rest) = firstDimVal pi rest := by
          unfold firstDimVal
          rw [List.find?_cons_of_neg _ (by simp [hset])]
        have hfdv_j : firstDimVal pj (s :: rest) = firstDimVal pj rest := by
          unfold firstDimVal
          rw [List.find?_cons_of_neg _ (by simp [hsetj])]
        have hui' : (rest.filter (dimSetter pi)).length ≤ 1 := by
          rw [List.filter_cons_of_neg (by simp [hset])] at hui; exact hui
        have huj' : (rest.filter (dimSetter pj)).length ≤ 1 := by
          rw [List.filter_cons_of_neg (by simp [hsetj])] at huj; exact huj
        cases hi0s : i0 with
        | some w =>
          cases hj0s : j0 with
          | some u =>
            simp [readDimsAux, hpi, hpj, hv]
          | none =>
            have hstep : readDimsAux pi pj (s :: rest) (some w) none =
                readDimsAux pi pj rest (some w) none := by
              simp [readDimsAux, hpi, hpj, hv]
            rw [hstep, ih (some w) none
              (fun _ => fun x hx => hi0 (by simp [hi0s]) x (by simp [hx]))
              (by simp) hui' huj', hfdv_j, hfdv_i]
        | none =>
          have hstep : readDimsAux pi pj (s :: rest) none j0 =
              readDimsAux pi pj rest none j0 := by
            cases j0 <;> simp [readDimsAux, hpi, hpj, hv]
          rw [hstep, ih none j0 (by simp)
            (fun hjs => fun x hx => hj0 hjs x (by simp [hx])) hui' huj', hfdv_i, hfdv_j]
    · by_cases hpj : pyStarts (pyStrip s) pj = true
      · cases hv : lastTokenInt (pyStrip s) with
        | some v =>
          have hset : dimSetter pj s = true := by simp [dimSetter, hpj, hv]
          have hseti : dimSetter pi s = false := by simp [dimSetter, hpi]
          have hj0none : j0 = none := by
            cases hj0s : j0 with
            | none => rfl
            | some w =>
              have := hj0 (by simp [hj0s]) s (by simp)
              rw [hset] at this
              exact absurd this (by simp)
          have hrest_pj : ∀ x ∈ rest, dimSetter pj x = false := filter_cons_le_one huj hset
          have hfdv_j : firstDimVal pj (s :: rest) = some v := by
            unfold firstDimVal
            rw [List.find?_cons_of_pos _ hset]
            exact hv
          have hfdv_i : firstDimVal pi (s :: rest) = firstDimVal pi rest := by
            unfold firstDimVal
            rw [List.find?_cons_of_neg _ (by simp [hseti])]
          subst hj0none
          cases hi0s : i0 with
          | some w =>
            simp [readDimsAux, hpi, hpj, hv, hfdv_j]
          | none =>
            have hstep : readDimsAux pi pj (s :: rest) none none =
                readDimsAux pi pj rest none (some v) := by
              simp [readDimsAux, hpi, hpj, hv]
            have hfiltrest : rest.filter (dimSetter pj) = [] :=
              List.filter_eq_nil_iff.mpr (fun x hx => by simp [hrest_pj x hx])
            have hfindrest : rest.find? (dimSetter pj) = none :=
              List.find?_eq_none.mpr (fun x hx => by simp [hrest_pj x hx])
            rw [hstep, ih none (some v) (by simp) (fun _ => hrest_pj)
              (by rw [List.filter_cons_of_neg (by simp [hseti])] at hui; exact hui)
              (by rw [hfiltrest]; simp)]
            rw [hfdv_i, hfdv_j]
            simp [firstDimVal, hfindrest]
        | none =>
          have hseti : dimSetter pi s = false := by simp [dimSetter, hpi]
          have hsetj : dimSetter pj s = false := by simp [dimSetter, hv]
          have hfdv_i : firstDimVal pi (s :: rest) = firstDimVal pi rest := by
            unfold firstDimVal
            rw [List.find?_cons_of_neg _ (by simp [hseti])]
          have hfdv_j : firstDimVal pj (s :: rest) = firstDimVal pj rest := by
            unfold firstDimVal
            rw [List.find?_cons_of_neg _ (by simp [hsetj])]
          have hui' : (rest.filter (dimSetter pi)).length ≤ 1 := by
            rw [List.filter_cons_of_neg (by simp [hseti])] at hui; exact hui
          have huj' : (rest.filter (dimSetter pj)).length ≤ 1 := by
            rw [List.filter_cons_of_neg (by simp [hsetj])] at huj; exact huj
          have hstep : readDimsAux pi pj (s :: rest) i0 j0 =
              (if i0.isSome && j0.isSome then (i0, j0) else readDimsAux pi pj rest i0 j0) := by
            simp [readDimsAux, hpi, hpj, hv]
          rw [hstep]
          by_cases hbothsome : i0.isSome && j0.isSome
          · rw [if_pos hbothsome]
            cases i0 with
            | none => simp at hbothsome
            | some w =>
              cases j0 with
              | none => simp at hbothsome
              | some u => simp
          · rw [if_neg hbothsome]
            rw [ih i0 j0 (fun his => fun x hx => hi0 his x (by simp [hx]))
              (fun hjs => fun x hx => hj0 hjs x (by simp [hx])) hui' huj', hfdv_i, hfdv_j]
      · have hseti : dimSetter pi s = false := by simp [dimSetter, hpi]
        have hsetj : dimSetter pj s = false := by simp [dimSetter, hpj]
        have hfdv_i : firstDimVal pi (s :: rest) = firstDimVal pi rest := by
          unfold firstDimVal
          rw [List.find?_cons_of_neg _ (by simp [hseti])]
        have hfdv_j : firstDimVal pj (s :: rest) = firstDimVal pj rest := by
          unfold firstDimVal
          rw [List.find?_cons_of_neg _ (by simp [hsetj])]
        have hui' : (rest.filter (dimSetter pi)).length ≤ 1 := by
          rw [List.filter_cons_of_neg (by simp [hseti])] at hui; exact hui
        have huj' : (rest.filter (dimSetter pj)).length ≤ 1 := by
          rw [List.filter_cons_of_neg (by simp [hsetj])] at huj; exact huj
        have hstep : readDimsAux pi pj (s :: rest) i0 j0 =
            (if i0.isSome && j0.isSome then (i0, j0) else readDimsAux pi pj rest i0 j0) := by
          simp [readDimsAux, hpi, hpj]
        rw [hstep]
        by_cases hbothsome : i0.isSome && j0.isSome
        · rw [if_pos hbothsome]
          cases i0 with
          | none => simp at hbothsome
          | some w =>
            cases j0 with
            | none => simp at hbothsome
            | some u => simp
        · rw [if_neg hbothsome]
          rw [ih i0 j0 (fun his => fun x hx => hi0 his x (by simp [hx]))
            (fun hjs => fun x hx => hj0 hjs x (by simp [hx])) hui' huj', hfdv_i, hfdv_j]

lemma iCount_jCount_not_both (b : Nat) (t : Line) :
    ¬(pyStarts t (iCountPfx b) = true ∧ pyStarts t (jCountPfx b) = true) := by
  rintro ⟨hi, hj⟩
  have hlen0 : ("/_locked/i_count".data : Line).length = ("/_locked/j_count".data : Line).length := by
    decide
  have hleni : (iCountPfx b).length = (jCountPfx b).length := by
    simp [iCountPfx, jCountPfx, hlen0]
  have hi' : iCountPfx b <+: t := by
    simpa [pyStarts, List.isPrefixOf_iff_prefix] using hi
  have hj' : jCountPfx b <+: t := by
    simpa [pyStarts, List.isPrefixOf_iff_prefix] using hj
  have heq : iCountPfx b = jCountPfx b := by
    rw [List.prefix_iff_eq_take.mp hi', List.prefix_iff_eq_take.mp hj', hleni]
  unfold iCountPfx jCountPfx at heq
  have : ("/_locked/i_count".data : Line) = "/_locked/j_count".data :=
    List.append_cancel_left heq
  exact absurd this (by decide)

/-- C9 (corrected): on a document with at most one parsable line per
count prefix, `read_target_dims_from_acf` returns the value carried by
the line whose stripped text starts with `P _body/<b>/_locked/i_count`
(resp. `j_count`) — a prefix match, so longer keys sharing the prefix
also count — and the defaults 20 / 18 when no such line parses. -/
theorem c9_read_target_dims (acf_lines : List Line) (b : Nat)
    (hi : (acf_lines.filter (dimSetter (iCountPfx b))).length ≤ 1)
    (hj : (acf_lines.filter (dimSetter (jCountPfx b))).length ≤ 1) :
    read_target_dims_from_acf acf_lines b =
      ((firstDimVal (iCountPfx b) acf_lines).getD 20,
        (firstDimVal (jCountPfx b) acf_lines).getD 18) := by
  unfold read_target_dims_from_acf
  rw [readDimsAux_spec (iCountPfx b) (jCountPfx b) (iCount_jCount_not_both b) acf_lines
    none none (by simp) (by simp) hi hj]
  simp

/-- C9 counterexample: a line with the longer key `i_count_max` precedes
the true `i_count` line; after the `j_count` line completes the pair the
scan stops, so the returned `i` dimension is 99, not the 7 carried by the
body's `i_count` line. -/
theorem c9_counterexample :
    read_target_dims_from_acf
        ["P _body/0/_locked/j_count 18".data, "P _body/0/_locked/i_count_max 99".data,
          "P _body/0/_locked/i_count 7".data] 0 = (99, 18) ∧
      "P _body/0/_locked/i_count 7".data ∈
        (["P _body/0/_locked/j_count 18".data, "P _body/0/_locked/i_count_max 99".data,
          "P _body/0/_locked/i_count 7".data] : List Line) ∧
      (99 : Int) ≠ 7 := by
  refine ⟨by decide, by decide, by decide⟩

/-- C9 witness: the theorem applied at a concrete two-line document. -/
theorem c9_witness :
    ((["P _body/0/_locked/i_count 12".data, "P _body/0/_locked/j_count 9".data] : List Line).filter
        (dimSetter (iCountPfx 0))).length ≤ 1 ∧
      ((["P _body/0/_locked/i_count 12".data, "P _body/0/_locked/j_count 9".data] : List Line).filter
        (dimSetter (jCountPfx 0))).length ≤ 1 ∧
      read_target_dims_from_acf
          ["P _body/0/_locked/i_count 12".data, "P _body/0/_locked/j_count 9".data] 0 =
        ((firstDimVal (iCountPfx 0)
            ["P _body/0/_locked/i_count 12".data, "P _body/0/_locked/j_count 9".data]).getD 20,
          (firstDimVal (jCountPfx 0)
            ["P _body/0/_locked/i_count 12".data, "P _body/0/_locked/j_count 9".data]).getD 18) :=
  ⟨by decide, by decide,
    c9_read_target_dims
      ["P _body/0/_locked/i_count 12".data, "P _body/0/_locked/j_count 9".data] 0
      (by decide) (by decide)⟩

/-! ### C2: grid shape, padding and truncation -/

lemma pad_length (stations : List (List Vec3)) (ti : Nat) :
    (pad_or_truncate_stations stations ti).length = ti := by
  unfold pad_or_truncate_stations
  split_ifs with h1 h2
  · exact h1
  · rw [List.length_take]
    omega
  · rw [List.length_append, List.length_replicate]
    omega

lemma stationCells_keys (b J : Nat) (jr jl : List Nat) (ln : Int) (wt : Bool) (i : Nat)
    (vh : List Vec3) :
    (stationCells b J jr jl ln wt i vh).map (fun c => (c.i, c.j, c.k)) =
      (List.range J).flatMap (fun j => [(i, j, 0), (i, j, 1), (i, j, 2)]) := by
  unfold stationCells
  split_ifs <;> simp [List.map_flatMap]

lemma stationCells_mem_i {b J : Nat} {jr jl : List Nat} {ln : Int} {wt : Bool} {i : Nat}
    {vh : List Vec3} {c : GeoCell} (hc : c ∈ stationCells b J jr jl ln wt i vh) : c.i = i := by
  unfold stationCells at hc
  split_ifs at hc <;>
  · simp only [List.mem_flatMap, List.mem_cons, List.mem_singleton,
      List.not_mem_nil, or_false] at hc
    obtain ⟨j, _, hj⟩ := hc
    rcases hj with rfl | rfl | rfl <;> rfl

lemma stationCells_empty_val {b J : Nat} {jr jl : List Nat} {ln : Int} {wt : Bool} {i : Nat}
    {c : GeoCell} (hc : c ∈ stationCells b J jr jl ln wt i []) : c.val = 0 := by
  unfold stationCells at hc
  rw [if_pos (by simp)] at hc
  simp only [List.mem_flatMap, List.mem_cons, List.mem_singleton,
    List.not_mem_nil, or_false] at hc
  obtain ⟨j, _, hj⟩ := hc
  rcases hj with rfl | rfl | rfl <;> rfl

lemma enum_flatMap_fst {α β : Type} (l : List α) (g : Nat → List β) :
    l.enum.flatMap (fun p => g p.1) = (List.range l.length).flatMap g := by
  conv_rhs => rw [← List.enum_map_fst l]
  rw [List.flatMap_map]

/-- C2 (corrected): the emitted geometry grid has exactly `target_i`
stations of exactly `max 2 target_j` slots (the code clamps the slot
count to at least two) with three axis entries each, in that exact
order; every station at an index at or past the real station count is
all-zero padding, and no cell with station index `≥ target_i` is ever
emitted. -/
theorem c2_grid_shape_pad_truncate (stations_mesh : List (List Vec3)) (b ti tj : Nat)
    (wt : Bool) :
    (generate_geo_xyz_from_stations stations_mesh b ti tj wt).map (fun c => (c.i, c.j, c.k)) =
      (List.range ti).flatMap (fun i =>
        (List.range (max 2 tj)).flatMap (fun j => [(i, j, 0), (i, j, 1), (i, j, 2)])) ∧
    (stations_mesh.length < ti →
      ∀ c ∈ generate_geo_xyz_from_stations stations_mesh b ti tj wt,
        stations_mesh.length ≤ c.i → c.val = 0) := by
  constructor
  · unfold generate_geo_xyz_from_stations
    dsimp only
    rw [List.map_flatMap]
    simp only [stationCells_keys]
    rw [enum_flatMap_fst (pad_or_truncate_stations stations_mesh ti)
      (fun i => (List.range (max 2 tj)).flatMap (fun j => [(i, j, 0), (i, j, 1), (i, j, 2)]))]
    rw [pad_length]
  · intro hlt c hc hci
    unfold generate_geo_xyz_from_stations at hc
    dsimp only at hc
    rw [List.mem_flatMap] at hc
    obtain ⟨p, hp, hcp⟩ := hc
    have hieq : c.i = p.1 := stationCells_mem_i hcp
    have hgp := List.mem_enum_iff_getElem?.mp hp
    have hpad : pad_or_truncate_stations stations_mesh ti =
        stations_mesh ++ List.replicate (ti - stations_mesh.length) [] := by
      unfold pad_or_truncate_stations
      rw [if_neg (by omega), if_neg (by omega)]
    rw [hpad] at hgp
    have hlen : stations_mesh.length ≤ p.1 := hieq ▸ hci
    rw [List.getElem?_append_right hlen] at hgp
    have hp2 : p.2 = ([] : List Vec3) := by
      rcases Nat.lt_or_ge (p.1 - stations_mesh.length) (ti - stations_mesh.length) with h | h
      · rw [List.getElem?_replicate, if_pos h] at hgp
        exact (Option.some_inj.mp hgp).symm
      · rw [List.getElem?_replicate, if_neg (by omega)] at hgp
        exact absurd hgp (by simp)
    rw [hp2] at hcp
    exact stationCells_empty_val hcp

/-- C2 counterexample: with `target_j = 1` the grid is emitted with two
slots per station (slot index 1 appears), not exactly `target_j` slots. -/
theorem c2_counterexample :
    (⟨0, 0, 1, 0, (0 : ℚ)⟩ : GeoCell) ∈ generate_geo_xyz_from_stations [] 0 1 1 true ∧
      (1 : Nat) ≥ 1 := by
  refine ⟨by decide, by decide⟩

/-- C2 witness: padding fills station 0 of an empty mesh with exact
zeros; the theorem applied at a concrete padded cell. -/
theorem c2_witness :
    ([] : List (List Vec3)).length < 1 ∧
      (⟨0, 0, 0, 0, (0 : ℚ)⟩ : GeoCell) ∈ generate_geo_xyz_from_stations [] 0 1 2 true ∧
      (⟨0, 0, 0, 0, (0 : ℚ)⟩ : GeoCell).val = 0 :=
  ⟨by decide, by decide,
    (c2_grid_shape_pad_truncate [] 0 1 2 true).2 (by decide) ⟨0, 0, 0, 0, (0 : ℚ)⟩
      (by decide) (by decide)⟩

/-! ### C10: small-mesh single-station fallback -/

lemma stationCells_nil_eq (b J : Nat) (jr jl : List Nat) (ln : Int) (wt : Bool) (i : Nat) :
    stationCells b J jr jl ln wt i [] =
      (List.range J).flatMap (fun j => [⟨b, i, j, 0, 0⟩, ⟨b, i, j, 1, 0⟩, ⟨b, i, j, 2, 0⟩]) := by
  unfold stationCells
  rw [if_pos (by simp)]

lemma stationCells_tip_eq (b J : Nat) (jr jl : List Nat) (ln : Int) (vh : List Vec3)
    (hvh : vh ≠ []) :
    stationCells b J jr jl ln true 0 vh =
      (List.range J).flatMap (fun j =>
        [⟨b, 0, j, 0, 0⟩, ⟨b, 0, j, 1, meanQ (vh.map (fun v => v.2.1)) * FT_PER_M⟩,
          ⟨b, 0, j, 2, meanQ (vh.map (fun v => v.2.2)) * FT_PER_M⟩]) := by
  unfold stationCells
  rw [if_neg (by simp [hvh]), if_pos (by simp)]

lemma zeroTail_cells (b J : Nat) (jr jl : List Nat) (ln : Int) (wt : Bool) :
    ∀ (k m : Nat),
      ((List.replicate k ([] : List Vec3)).enumFrom m).flatMap
          (fun p => stationCells b J jr jl ln wt p.1 p.2) =
        (List.range' m k).flatMap (fun i =>
          (List.range J).flatMap (fun j => [⟨b, i, j, 0, 0⟩, ⟨b, i, j, 1, 0⟩, ⟨b, i, j, 2, 0⟩])) := by
  intro k
  induction k with
  | zero => intro m; simp
  | succ n ih =>
    intro m
    rw [List.replicate_succ, List.enumFrom_cons, List.flatMap_cons, ih (m + 1)]
    rw [List.range'_succ, List.flatMap_cons, stationCells_nil_eq]

lemma pad_singleton (s : List Vec3) (ti : Nat) (hti : 1 ≤ ti) :
    pad_or_truncate_stations [s] ti = [s] ++ List.replicate (ti - 1) [] := by
  unfold pad_or_truncate_stations
  rcases Nat.lt_or_ge 1 ti with h | h
  · rw [if_neg (by simp; omega), if_neg (by simp; omega)]
    simp
  · have : ti = 1 := by omega
    subst this
    simp

/-- C10: a nonempty vertex list shorter than `verts_per_loop + 2` yields a
single station holding all vertices in ascending z order (no tip/tail
split even with `with_tip_tail = true`); the geometry emitter then treats
that single station as a tip, broadcasting the mean of the off-axis
coordinates (x = 0) to every slot, followed by all-zero padding. -/
theorem c10_small_mesh_single_station (verts : List Vec3) (vpl b ti tj : Nat)
    (hne : verts ≠ []) (hsmall : verts.length < vpl + 2) :
    build_stations_from_geometry verts vpl true = [sortByZ verts] ∧
    (sortByZ verts).Perm verts ∧
    List.Sorted (fun a b : Vec3 => a.2.2 ≤ b.2.2) (sortByZ verts) ∧
    (1 ≤ ti →
      generate_geo_xyz_from_stations (build_stations_from_geometry verts vpl true) b ti tj true =
        (List.range (max 2 tj)).flatMap (fun j =>
          [⟨b, 0, j, 0, 0⟩, ⟨b, 0, j, 1, meanQ (verts.map (fun v => v.2.1)) * FT_PER_M⟩,
            ⟨b, 0, j, 2, meanQ (verts.map (fun v => v.2.2)) * FT_PER_M⟩]) ++
        (List.range' 1 (ti - 1)).flatMap (fun i =>
          (List.range (max 2 tj)).flatMap (fun j =>
            [⟨b, i, j, 0, 0⟩, ⟨b, i, j, 1, 0⟩, ⟨b, i, j, 2, 0⟩]))) := by
  have hperm : (sortByZ verts).Perm verts := List.perm_insertionSort _ verts
  have hbuild : build_stations_from_geometry verts vpl true = [sortByZ verts] := by
    unfold build_stations_from_geometry
    rw [if_neg (by simp [hne])]
    rw [if_pos (by rw [sortByZ, (List.perm_insertionSort _ verts).length_eq]; omega)]
  refine ⟨hbuild, hperm, ?_, ?_⟩
  · haveI : IsTotal Vec3 (fun a b : Vec3 => a.2.2 ≤ b.2.2) := ⟨fun a b => le_total _ _⟩
    haveI : IsTrans Vec3 (fun a b : Vec3 => a.2.2 ≤ b.2.2) := ⟨fun _ _ _ => le_trans⟩
    exact List.sorted_insertionSort _ verts
  · intro hti
    rw [hbuild]
    unfold generate_geo_xyz_from_stations
    dsimp only
    rw [pad_singleton _ _ hti]
    have hsne : sortByZ verts ≠ [] := by
      intro h
      exact hne (List.Perm.eq_nil (h ▸ hperm).symm)
    rw [List.singleton_append, List.enum_cons, List.flatMap_cons, zeroTail_cells]
    rw [stationCells_tip_eq _ _ _ _ _ _ hsne]
    have hmy : meanQ ((sortByZ verts).map (fun v => v.2.1)) =
        meanQ (verts.map (fun v => v.2.1)) := by
      unfold meanQ
      rw [(hperm.map (fun v : Vec3 => v.2.1)).sum_eq,
        (hperm.map (fun v : Vec3 => v.2.1)).length_eq]
      rw [if_neg (by simp [List.isEmpty_iff, hsne]), if_neg (by simp [List.isEmpty_iff, hne])]
    have hmz : meanQ ((sortByZ verts).map (fun v => v.2.2)) =
        meanQ (verts.map (fun v => v.2.2)) := by
      unfold meanQ
      rw [(hperm.map (fun v : Vec3 => v.2.2)).sum_eq,
        (hperm.map (fun v : Vec3 => v.2.2)).length_eq]
      rw [if_neg (by simp [List.isEmpty_iff, hsne]), if_neg (by simp [List.isEmpty_iff, hne])]
    rw [hmy, hmz]

/-- C10 witness: the theorem applied at a concrete one-vertex mesh. -/
theorem c10_witness :
    ([((0 : ℚ), 0, 0)] : List Vec3) ≠ [] ∧ ([((0 : ℚ), 0, 0)] : List Vec3).length < 16 + 2 ∧
      1 ≤ 2 ∧
      generate_geo_xyz_from_stations
          (build_stations_from_geometry [((0 : ℚ), 0, 0)] 16 true) 5 2 2 true =
        (List.range (max 2 2)).flatMap (fun j =>
          [⟨5, 0, j, 0, 0⟩,
            ⟨5, 0, j, 1, meanQ (([((0 : ℚ), 0, 0)] : List Vec3).map (fun v => v.2.1)) * FT_PER_M⟩,
            ⟨5, 0, j, 2, meanQ (([((0 : ℚ), 0, 0)] : List Vec3).map (fun v => v.2.2)) * FT_PER_M⟩]) ++
        (List.range' 1 (2 - 1)).flatMap (fun i =>
          (List.range (max 2 2)).flatMap (fun j =>
            [⟨5, i, j, 0, 0⟩, ⟨5, i, j, 1, 0⟩, ⟨5, i, j, 2, 0⟩])) :=
  ⟨by decide, by decide, by decide,
    (c10_small_mesh_single_station [((0 : ℚ), 0, 0)] 16 5 2 2 (by decide) (by decide)).2.2.2
      (by decide)⟩

/-! ### C8: bounding radius -/

lemma ifGtEqMax (a q : ℚ) : (if q > a then q else a) = max a q := by
  rcases le_or_lt q a with h | h
  · rw [if_neg (not_lt.mpr h), max_eq_left h]
  · rw [if_pos h, max_eq_right h.le]

lemma pairfold_eq : ∀ (l : List Vec3) (a bq : ℚ),
    l.foldl (fun mm v =>
        (if |v.1| > mm.1 then |v.1| else mm.1, if |v.2.1| > mm.2 then |v.2.1| else mm.2))
      (a, bq) =
      (l.foldl (fun m v => max m |v.1|) a, l.foldl (fun m v => max m |v.2.1|) bq) := by
  intro l
  induction l with
  | nil => intro a bq; rfl
  | cons v t ih =>
    intro a bq
    rw [List.foldl_cons, List.foldl_cons, List.foldl_cons, ifGtEqMax, ifGtEqMax, ih]

lemma max_fold_fold : ∀ (l : List Vec3) (a bq : ℚ),
    max (l.foldl (fun m v => max m |v.1|) a) (l.foldl (fun m v => max m |v.2.1|) bq) =
      l.foldl (fun m v => max m (max |v.1| |v.2.1|)) (max a bq) := by
  intro l
  induction l with
  | nil => intro a bq; rfl
  | cons v t ih =>
    intro a bq
    rw [List.foldl_cons, List.foldl_cons, List.foldl_cons, ih, max_max_max_comm]

lemma foldlMax_ge_acc : ∀ (l : List ℚ) (acc : ℚ), acc ≤ l.foldl max acc := by
  intro l
  induction l with
  | nil => intro acc; exact le_refl acc
  | cons q t ih =>
    intro acc
    exact le_trans (le_max_left acc q) (ih (max acc q))

lemma foldlMax_le_of_mem : ∀ (l : List ℚ) (acc x : ℚ), x ∈ l → x ≤ l.foldl max acc := by
  intro l
  induction l with
  | nil => intro acc x hx; exact absurd hx (List.not_mem_nil x)
  | cons q t ih =>
    intro acc x hx
    rcases List.mem_cons.mp hx with rfl | hx
    · exact le_trans (le_max_right acc x) (foldlMax_ge_acc t (max acc x))
    · exact ih (max acc q) x hx

lemma compute_part_rad_eq (rings : List (List Vec3)) (buffer_ft : ℚ) :
    compute_part_rad_from_rings rings buffer_ft = ringsHorizMax rings + buffer_ft := by
  unfold compute_part_rad_from_rings ringsHorizMax
  dsimp only
  congr 1
  have key : ∀ (rs : List (List Vec3)) (a bq : ℚ),
      max (rs.foldl (fun acc ring => ring.foldl (fun mm v =>
          (if |v.1| > mm.1 then |v.1| else mm.1, if |v.2.1| > mm.2 then |v.2.1| else mm.2)) acc)
        (a, bq)).1
        (rs.foldl (fun acc ring => ring.foldl (fun mm v =>
          (if |v.1| > mm.1 then |v.1| else mm.1, if |v.2.1| > mm.2 then |v.2.1| else mm.2)) acc)
        (a, bq)).2 =
        ((rs.flatMap id).map (fun v => max |v.1| |v.2.1|)).foldl max (max a bq) := by
    intro rs
    induction rs with
    | nil => intro a bq; rfl
    | cons r t ih =>
      intro a bq
      simp only [List.foldl_cons, List.flatMap_cons, List.map_append, List.foldl_append]
      rw [pairfold_eq r a bq, ih, max_fold_fold]
      simp [List.foldl_map]
  exact key rings 0 0

lemma compute_part_rad_bounds (rings : List (List Vec3)) (buffer_ft : ℚ) (hb : 0 ≤ buffer_ft) :
    ∀ ring ∈ rings, ∀ v ∈ ring,
      |v.1| ≤ compute_part_rad_from_rings rings buffer_ft ∧
      |v.2.1| ≤ compute_part_rad_from_rings rings buffer_ft := by
  intro ring hring v hv
  rw [compute_part_rad_eq]
  have hmem : max |v.1| |v.2.1| ∈ (rings.flatMap id).map (fun v => max |v.1| |v.2.1|) :=
    List.mem_map_of_mem _ (List.mem_flatMap.mpr ⟨ring, hring, hv⟩)
  have hle : max |v.1| |v.2.1| ≤ ringsHorizMax rings :=
    foldlMax_le_of_mem _ 0 _ hmem
  constructor
  · calc |v.1| ≤ max |v.1| |v.2.1| := le_max_left _ _
      _ ≤ ringsHorizMax rings := hle
      _ ≤ ringsHorizMax rings + buffer_ft := by linarith
  · calc |v.2.1| ≤ max |v.1| |v.2.1| := le_max_right _ _
      _ ≤ ringsHorizMax rings := hle
      _ ≤ ringsHorizMax rings + buffer_ft := by linarith

lemma compute_grid_radius_eq (verts : List Vec3) (hne : verts ≠ []) :
    compute_grid_radius_ft verts = vertsHorizMax verts * FT_PER_M + 3 := by
  unfold compute_grid_radius_ft vertsHorizMax
  rw [if_neg (by simp [List.isEmpty_iff, hne])]
  dsimp only
  congr 2
  rw [List.foldl_map, List.foldl_map, List.foldl_map]
  have := max_fold_fold verts 0 0
  rw [max_self] at this
  exact this

lemma mem_pad {stations : List (List Vec3)} {ti : Nat} {vh : List Vec3}
    (h : vh ∈ pad_or_truncate_stations stations ti) : vh ∈ stations ∨ vh = [] := by
  unfold pad_or_truncate_stations at h
  split_ifs at h
  · exact Or.inl h
  · exact Or.inl (List.mem_of_mem_take h)
  · rcases List.mem_append.mp h with h | h
    · exact Or.inl h
    · exact Or.inr (List.eq_of_mem_replicate h)

lemma sum_abs_le : ∀ (l : List ℚ) (M : ℚ), (∀ y ∈ l, |y| ≤ M) → |l.sum| ≤ l.length * M := by
  intro l
  induction l with
  | nil => intro M _; simp
  | cons q t ih =>
    intro M h
    rw [List.sum_cons, List.length_cons]
    have h1 := ih M (fun y hy => h y (by simp [hy]))
    have h2 := h q (by simp)
    calc |q + t.sum| ≤ |q| + |t.sum| := abs_add _ _
      _ ≤ M + t.length * M := by linarith
      _ = ((t.length + 1 : ℕ) : ℚ) * M := by push_cast; ring

lemma abs_meanQ_le (l : List ℚ) (M : ℚ) (hM : 0 ≤ M) (h : ∀ y ∈ l, |y| ≤ M) :
    |meanQ l| ≤ M := by
  unfold meanQ
  rcases l with _ | ⟨q, t⟩
  · simpa using hM
  · rw [if_neg (by simp)]
    have hlen : (0 : ℚ) < ((q :: t).length : ℚ) := by
      rw [List.length_cons]
      push_cast
      positivity
    rw [abs_div, abs_of_pos hlen, div_le_iff₀ hlen]
    calc |(q :: t).sum| ≤ (q :: t).length * M := sum_abs_le _ M h
      _ = M * (q :: t).length := by ring

lemma cellStep_spec (jr jl : List Nat) (m : Nat × Nat → Option ℚ) (p : Nat × Vec3)
    (P : ℚ → Prop)
    (hm : ∀ j k q, k = 0 ∨ k = 1 → m (j, k) = some q → P q)
    (hx : P (p.2.1 * FT_PER_M)) (hxn : P (-(p.2.1 * FT_PER_M)))
    (hy : P (p.2.2.1 * FT_PER_M)) :
    ∀ j k q, k = 0 ∨ k = 1 → cellStep jr jl m p (j, k) = some q → P q := by
  intro j k q hk hq
  unfold cellStep at hq
  split_ifs at hq with h1 h2 h3 h4 h5 h6
  · simp only [Prod.mk.injEq] at h1
    rcases hk with rfl | rfl <;> omega
  · rw [Option.some_inj] at hq
    exact hq ▸ hy
  · rw [Option.some_inj] at hq
    exact hq ▸ hxn
  · simp only [Prod.mk.injEq] at h4
    rcases hk with rfl | rfl <;> omega
  · rw [Option.some_inj] at hq
    exact hq ▸ hy
  · rw [Option.some_inj] at hq
    exact hq ▸ hx
  · exact hm j k q hk hq

lemma cellFold_spec (jr jl : List Nat) (P : ℚ → Prop) :
    ∀ (l : List (Nat × Vec3)) (m : Nat × Nat → Option ℚ),
      (∀ j k q, k = 0 ∨ k = 1 → m (j, k) = some q → P q) →
      (∀ p ∈ l, P (p.2.1 * FT_PER_M) ∧ P (-(p.2.1 * FT_PER_M)) ∧ P (p.2.2.1 * FT_PER_M)) →
      ∀ j k q, k = 0 ∨ k = 1 → (l.foldl (cellStep jr jl) m) (j, k) = some q → P q := by
  intro l
  induction l with
  | nil =>
    intro m hm _
    exact hm
  | cons p t ih =>
    intro m hm hl
    rw [List.foldl_cons]
    exact ih (cellStep jr jl m p)
      (cellStep_spec jr jl m p P hm (hl p (by simp)).1 (hl p (by simp)).2.1
        (hl p (by simp)).2.2)
      (fun p' hp' => hl p' (by simp [hp']))

lemma buildCellMap_spec (jr jl : List Nat) (ps : List Vec3) (P : ℚ → Prop)
    (hps : ∀ v ∈ ps, P (v.1 * FT_PER_M) ∧ P (-(v.1 * FT_PER_M)) ∧ P (v.2.1 * FT_PER_M)) :
    ∀ j k q, k = 0 ∨ k = 1 → buildCellMap jr jl ps (j, k) = some q → P q := by
  unfold buildCellMap
  apply cellFold_spec
  · intro j k q _ h
    exact absurd h (by simp)
  · intro p hp
    have hmem : p.2 ∈ ps := by
      have := List.mem_enum_iff_getElem?.mp hp
      exact List.getElem?_mem this
    exact hps p.2 hmem

lemma vertsHorizMax_nonneg (verts : List Vec3) : 0 ≤ vertsHorizMax verts :=
  foldlMax_ge_acc _ 0

lemma vertsHorizMax_bound {verts : List Vec3} {v : Vec3} (hv : v ∈ verts) :
    |v.1| ≤ vertsHorizMax verts ∧ |v.2.1| ≤ vertsHorizMax verts := by
  have hm : max |v.1| |v.2.1| ∈ verts.map (fun v => max |v.1| |v.2.1|) :=
    List.mem_map_of_mem _ hv
  have hle := foldlMax_le_of_mem _ 0 _ hm
  exact ⟨le_trans (le_max_left _ _) hle, le_trans (le_max_right _ _) hle⟩

lemma FT_pos : (0 : ℚ) < FT_PER_M := by norm_num [FT_PER_M]

lemma stationCells_val_bound (b J : Nat) (jr jl : List Nat) (ln : Int) (wt : Bool) (i : Nat)
    (vh verts : List Vec3) (hne : verts ≠ []) (hsub : ∀ v ∈ vh, v ∈ verts) :
    ∀ c ∈ stationCells b J jr jl ln wt i vh, c.k = 0 ∨ c.k = 1 →
      |c.val| ≤ compute_grid_radius_ft verts := by
  have hR : compute_grid_radius_ft verts = vertsHorizMax verts * FT_PER_M + 3 :=
    compute_grid_radius_eq verts hne
  have hVH := vertsHorizMax_nonneg verts
  have hzero : |(0 : ℚ)| ≤ compute_grid_radius_ft verts := by
    rw [hR, abs_zero]
    nlinarith [FT_pos]
  have hxb : ∀ v ∈ verts, |v.1 * FT_PER_M| ≤ compute_grid_radius_ft verts := by
    intro v hv
    rw [hR, abs_mul, abs_of_pos FT_pos]
    nlinarith [(vertsHorizMax_bound hv).1, FT_pos]
  have hyb : ∀ v ∈ verts, |v.2.1 * FT_PER_M| ≤ compute_grid_radius_ft verts := by
    intro v hv
    rw [hR, abs_mul, abs_of_pos FT_pos]
    nlinarith [(vertsHorizMax_bound hv).2, FT_pos]
  intro c hc hk
  unfold stationCells at hc
  split_ifs at hc with hemp htip
  · simp only [List.mem_flatMap, List.mem_cons, List.mem_singleton,
      List.not_mem_nil, or_false] at hc
    obtain ⟨j, _, hj⟩ := hc
    rcases hj with rfl | rfl | rfl <;> exact hzero
  · simp only [List.mem_flatMap, List.mem_cons, List.mem_singleton,
      List.not_mem_nil, or_false] at hc
    obtain ⟨j, _, hj⟩ := hc
    rcases hj with rfl | rfl | rfl
    · exact hzero
    · show |meanQ (vh.map (fun v => v.2.1)) * FT_PER_M| ≤ _
      rw [abs_mul, abs_of_pos FT_pos, hR]
      have hmean : |meanQ (vh.map (fun v => v.2.1))| ≤ vertsHorizMax verts := by
        apply abs_meanQ_le _ _ hVH
        intro y hy
        obtain ⟨v, hv, rfl⟩ := List.mem_map.mp hy
        exact (vertsHorizMax_bound (hsub v hv)).2
      nlinarith [FT_pos]
    · rcases hk with hk | hk <;> simp at hk
  · simp only [List.mem_flatMap, List.mem_cons, List.mem_singleton,
      List.not_mem_nil, or_false] at hc
    set PS := sortByYDesc (if (vh.filter (fun v => decide (0 ≤ v.1))).isEmpty then vh
      else vh.filter (fun v => decide (0 ≤ v.1))) with hPSdef
    obtain ⟨j, _, hj⟩ := hc
    have hps : ∀ v ∈ PS, v ∈ verts := by
      intro v hv
      rw [hPSdef] at hv
      have hv1 := ((List.perm_insertionSort _ _).mem_iff).mp hv
      apply hsub
      split_ifs at hv1
      · exact hv1
      · exact List.mem_of_mem_filter hv1
    have hcell : ∀ (j' k' : Nat) (q : ℚ), k' = 0 ∨ k' = 1 →
        buildCellMap jr jl PS (j', k') = some q → |q| ≤ compute_grid_radius_ft verts := by
      apply buildCellMap_spec
      intro v hv
      refine ⟨hxb v (hps v hv), ?_, hyb v (hps v hv)⟩
      rw [abs_neg]
      exact hxb v (hps v hv)
    rcases hj with rfl | rfl | rfl
    · cases hm2 : buildCellMap jr jl PS (j, 0) with
      | none => exact hzero
      | some q => exact hcell j 0 q (Or.inl rfl) hm2
    · cases hm2 : buildCellMap jr jl PS (j, 1) with
      | none => exact hzero
      | some q => exact hcell j 1 q (Or.inr rfl) hm2
    · rcases hk with hk | hk <;> simp at hk

/-- C8 (corrected): `compute_part_rad_from_rings` is the largest
horizontal magnitude over its ring list plus the buffer, while
`compute_grid_radius_ft` is computed from the source vertex list (not
from the emitted grid): largest horizontal vertex magnitude, in feet,
plus 3. Both dominate the horizontal extent of what is emitted: every
emitted grid value on the two horizontal axes is bounded by the grid
radius whenever the stations draw their vertices from the scanned list. -/
theorem c8_bounding_radius :
    (∀ (rings : List (List Vec3)) (buffer_ft : ℚ),
      compute_part_rad_from_rings rings buffer_ft = ringsHorizMax rings + buffer_ft) ∧
    (∀ verts : List Vec3, verts ≠ [] →
      compute_grid_radius_ft verts = vertsHorizMax verts * FT_PER_M + 3) ∧
    (∀ (rings : List (List Vec3)) (buffer_ft : ℚ), 0 ≤ buffer_ft →
      ∀ ring ∈ rings, ∀ v ∈ ring,
        |v.1| ≤ compute_part_rad_from_rings rings buffer_ft ∧
        |v.2.1| ≤ compute_part_rad_from_rings rings buffer_ft) ∧
    (∀ (stations : List (List Vec3)) (verts : List Vec3) (b ti tj : Nat) (wt : Bool),
      verts ≠ [] → (∀ s ∈ stations, ∀ v ∈ s, v ∈ verts) →
      ∀ c ∈ generate_geo_xyz_from_stations stations b ti tj wt, c.k = 0 ∨ c.k = 1 →
        |c.val| ≤ compute_grid_radius_ft verts) := by
  refine ⟨compute_part_rad_eq, compute_grid_radius_eq, compute_part_rad_bounds, ?_⟩
  intro stations verts b ti tj wt hne hsub c hc hk
  unfold generate_geo_xyz_from_stations at hc
  dsimp only at hc
  rw [List.mem_flatMap] at hc
  obtain ⟨p, hp, hcp⟩ := hc
  have hpadmem : p.2 ∈ pad_or_truncate_stations stations ti := by
    have := List.mem_enum_iff_getElem?.mp hp
    exact List.getElem?_mem this
  have hsub' : ∀ v ∈ p.2, v ∈ verts := by
    rcases mem_pad hpadmem with h | h
    · exact fun v hv => hsub p.2 h v hv
    · rw [h]
      intro v hv
      exact absurd hv (List.not_mem_nil v)
  exact stationCells_val_bound b _ _ _ _ wt p.1 p.2 verts hne hsub' c hcp hk

/-- C8 counterexample: for a one-vertex mesh the tip emission zeroes x
and broadcasts the mean y, so the largest emitted horizontal magnitude is
1 ft-converted unit, yet `compute_grid_radius_ft` scans the source vertex
(|x| = 5) — the radius is not the emitted maximum plus the margin. -/
theorem c8_counterexample :
    compute_grid_radius_ft [((5 : ℚ), 1, 0)] ≠
      maxHorizAbs (generate_geo_xyz_from_stations
        (build_stations_from_geometry [((5 : ℚ), 1, 0)] 16 true) 0 1 2 true) + 3 := by
  have hbuild : build_stations_from_geometry [((5 : ℚ), 1, 0)] 16 true = [[((5 : ℚ), 1, 0)]] := by
    unfold build_stations_from_geometry
    norm_num [sortByZ, List.insertionSort]
  rw [hbuild]
  have hpad : pad_or_truncate_stations [[((5 : ℚ), 1, 0)]] 1 = [[((5 : ℚ), 1, 0)]] := by decide
  have hgen : generate_geo_xyz_from_stations [[((5 : ℚ), 1, 0)]] 0 1 2 true =
      (List.range 2).flatMap (fun j =>
        [⟨0, 0, j, 0, 0⟩,
          ⟨0, 0, j, 1, meanQ ([((5 : ℚ), 1, 0)].map (fun v : Vec3 => v.2.1)) * FT_PER_M⟩,
          ⟨0, 0, j, 2, meanQ ([((5 : ℚ), 1, 0)].map (fun v : Vec3 => v.2.2)) * FT_PER_M⟩]) := by
    unfold generate_geo_xyz_from_stations
    dsimp only
    rw [hpad]
    rw [show ([[((5 : ℚ), 1, 0)]] : List (List Vec3)).enum = [(0, [((5 : ℚ), 1, 0)])] from by decide]
    rw [List.flatMap_cons, List.flatMap_nil, List.append_nil]
    exact stationCells_tip_eq 0 (max 2 2) _ _ _ [((5 : ℚ), 1, 0)] (by decide)
  rw [hgen]
  have hrange : List.range 2 = [0, 1] := by decide
  rw [hrange]
  norm_num [maxHorizAbs, meanQ, compute_grid_radius_ft, FT_PER_M, List.filter, List.foldl]
  rw [abs_of_nonneg (by norm_num : (0 : ℚ) ≤ 82021 / 25000)]
  norm_num

/-- C8 witness: the theorem applied at concrete rings, vertices and a
concrete emitted cell. -/
theorem c8_witness :
    (([((1 : ℚ), 2, 3)] : List Vec3) ∈ ([[((1 : ℚ), 2, 3)]] : List (List Vec3))) ∧
      (((1 : ℚ), 2, 3) ∈ ([((1 : ℚ), 2, 3)] : List Vec3)) ∧ (0 : ℚ) ≤ 1 ∧
      (|(1 : ℚ)| ≤ compute_part_rad_from_rings [[((1 : ℚ), 2, 3)]] 1 ∧
        |(2 : ℚ)| ≤ compute_part_rad_from_rings [[((1 : ℚ), 2, 3)]] 1) ∧
      ([((0 : ℚ), 0, 0)] : List Vec3) ≠ [] ∧
      ((⟨0, 0, 0, 0, (0 : ℚ)⟩ : GeoCell) ∈
        generate_geo_xyz_from_stations [[], []] 0 2 2 true) ∧
      |(⟨0, 0, 0, 0, (0 : ℚ)⟩ : GeoCell).val| ≤ compute_grid_radius_ft [((0 : ℚ), 0, 0)] :=
  ⟨by decide, by decide, by decide,
    c8_bounding_radius.2.2.1 [[((1 : ℚ), 2, 3)]] 1 (by decide) [((1 : ℚ), 2, 3)] (by decide)
      ((1 : ℚ), 2, 3) (by decide),
    by decide, by decide,
    c8_bounding_radius.2.2.2 [[], []] [((0 : ℚ), 0, 0)] 0 2 2 true (by decide)
      (by decide) ⟨0, 0, 0, 0, (0 : ℚ)⟩ (by decide) (by decide)⟩

/-! ### C3: canonical half ordering and mirroring -/

lemma foldMaxBy_mem (p : Nat × ℚ) (rest : List (Nat × ℚ)) :
    rest.foldl (fun best q => if q.2 > best.2 then q else best) p ∈ p :: rest := by
  induction rest generalizing p with
  | nil => simp
  | cons a t ih =>
    rw [List.foldl_cons]
    by_cases hc : a.2 > p.2
    · rw [if_pos hc]
      exact List.mem_cons_of_mem p (ih a)
    · rw [if_neg hc]
      rcases List.mem_cons.mp (ih p) with h | h
      · rw [h]; exact List.mem_cons_self p _
      · exact List.mem_cons_of_mem p (List.mem_cons_of_mem a h)

lemma foldMaxBy_ge (p : Nat × ℚ) (rest : List (Nat × ℚ)) :
    ∀ q ∈ p :: rest,
      q.2 ≤ (rest.foldl (fun best q => if q.2 > best.2 then q else best) p).2 := by
  induction rest generalizing p with
  | nil =>
    intro q hq
    rw [List.mem_singleton] at hq
    rw [hq, List.foldl_nil]
  | cons a t ih =>
    intro q hq
    rw [List.foldl_cons]
    have hfa : p.2 ≤ (if a.2 > p.2 then a else p).2 ∧ a.2 ≤ (if a.2 > p.2 then a else p).2 := by
      by_cases hc : a.2 > p.2
      · rw [if_pos hc]; exact ⟨le_of_lt hc, le_refl _⟩
      · rw [if_neg hc]; exact ⟨le_refl _, not_lt.mp hc⟩
    rcases List.mem_cons.mp hq with rfl | hq'
    · exact le_trans hfa.1 (ih _ _ (List.mem_cons_self _ _))
    · rcases List.mem_cons.mp hq' with rfl | hq''
      · exact le_trans hfa.2 (ih _ _ (List.mem_cons_self _ _))
      · exact ih _ q (List.mem_cons_of_mem _ hq'')

lemma foldMinBy_mem (p : Nat × ℚ) (rest : List (Nat × ℚ)) :
    rest.foldl (fun best q => if q.2 < best.2 then q else best) p ∈ p :: rest := by
  induction rest generalizing p with
  | nil => simp
  | cons a t ih =>
    rw [List.foldl_cons]
    by_cases hc : a.2 < p.2
    · rw [if_pos hc]
      exact List.mem_cons_of_mem p (ih a)
    · rw [if_neg hc]
      rcases List.mem_cons.mp (ih p) with h | h
      · rw [h]; exact List.mem_cons_self p _
      · exact List.mem_cons_of_mem p (List.mem_cons_of_mem a h)

lemma foldMinBy_le (p : Nat × ℚ) (rest : List (Nat × ℚ)) :
    ∀ q ∈ p :: rest,
      (rest.foldl (fun best q => if q.2 < best.2 then q else best) p).2 ≤ q.2 := by
  induction rest generalizing p with
  | nil =>
    intro q hq
    rw [List.mem_singleton] at hq
    rw [hq, List.foldl_nil]
  | cons a t ih =>
    intro q hq
    rw [List.foldl_cons]
    have hfa : (if a.2 < p.2 then a else p).2 ≤ p.2 ∧ (if a.2 < p.2 then a else p).2 ≤ a.2 := by
      by_cases hc : a.2 < p.2
      · rw [if_pos hc]; exact ⟨le_of_lt hc, le_refl _⟩
      · rw [if_neg hc]; exact ⟨le_refl _, not_lt.mp hc⟩
    rcases List.mem_cons.mp hq with rfl | hq'
    · exact le_trans (ih _ _ (List.mem_cons_self _ _)) hfa.1
    · rcases List.mem_cons.mp hq' with rfl | hq''
      · exact le_trans (ih _ _ (List.mem_cons_self _ _)) hfa.2
      · exact ih _ q (List.mem_cons_of_mem _ hq'')

lemma pyMaxBySnd_spec (l : List (Nat × ℚ)) (h : l ≠ []) :
    pyMaxBySnd l ∈ l ∧ ∀ q ∈ l, q.2 ≤ (pyMaxBySnd l).2 := by
  cases l with
  | nil => exact absurd rfl h
  | cons p rest => exact ⟨foldMaxBy_mem p rest, foldMaxBy_ge p rest⟩

lemma pyMinBySnd_spec (l : List (Nat × ℚ)) (h : l ≠ []) :
    pyMinBySnd l ∈ l ∧ ∀ q ∈ l, (pyMinBySnd l).2 ≤ q.2 := by
  cases l with
  | nil => exact absurd rfl h
  | cons p rest => exact ⟨foldMinBy_mem p rest, foldMinBy_le p rest⟩

lemma mem_center_indices {hft : List Vec3} {i : Nat} (h : i ∈ center_indices hft) :
    |(hft.getD i (0, 0, 0)).1| < epsCenter := by
  unfold center_indices at h
  rw [List.mem_map] at h
  obtain ⟨p, hp, hpi⟩ := h
  rw [List.mem_filter] at hp
  obtain ⟨hpe, hpd⟩ := hp
  have hlt := of_decide_eq_true hpd
  have hge : hft[p.1]? = some p.2 := List.mem_enum_iff_getElem?.mp hpe
  subst hpi
  rw [List.getD_eq_getElem?_getD, hge, Option.getD_some]
  exact hlt

lemma snapE_neg_snapE (q : ℚ) : snapE (-snapE q) = -snapE q := by
  by_cases h : |q| < epsQ
  · have h0 : snapE q = 0 := by rw [snapE, if_pos h]
    rw [h0]; norm_num [snapE, epsQ]
  · have h1 : snapE q = q := by rw [snapE, if_neg h]
    rw [h1, snapE, if_neg (by rwa [abs_neg])]

lemma left_ring_length (o : List Vec3) : (left_ring o).length = 9 := by
  simp [left_ring]

lemma left_ring_getD_fst (o : List Vec3) (s : Nat) (hs : s < 9) :
    ∃ u, ((left_ring o).getD s (0, 0, 0)).1 = snapE u := by
  unfold left_ring
  rw [List.getD_eq_getElem?_getD, List.getElem?_map, List.getElem?_range hs,
    Option.map_some', Option.getD_some]
  exact ⟨_, rfl⟩

lemma getD_map_of_lt {α β : Type _} (f : α → β) (l : List α) (s : Nat) (h : s < l.length)
    (d : β) (d' : α) : (l.map f).getD s d = f (l.getD s d') := by
  rw [List.getD_eq_getElem?_getD, List.getElem?_map, List.getElem?_eq_getElem h,
    Option.map_some', Option.getD_some, List.getD_eq_getElem?_getD,
    List.getElem?_eq_getElem h, Option.getD_some]

lemma mid_ring_ok (sv ring : List Vec3) (n : Nat) (h : mid_ring sv = .ok (ring, n)) :
    ring = left_ring (orderedHalf ((half_raw sv).map toFeet)) ++
      (left_ring (orderedHalf ((half_raw sv).map toFeet))).map
        (fun v => (snapE (-v.1), v.2.1, v.2.2)) := by
  simp only [mid_ring] at h
  by_cases hc : 5 ≤ (half_raw sv).length ∧ (half_raw sv).length ≤ 9
  · rw [if_neg (not_not_intro hc)] at h
    simp only [Except.ok.injEq, Prod.mk.injEq] at h
    exact h.1.symm
  · rw [if_pos hc] at h
    exact absurd h (by simp)

/-- C3: for every half with at least two centerline vertices (|x| below
`eps_center`), the canonical ordering is `[top] ++ angularly-descending
sides ++ [bottom]` where `top`/`bottom` are centerline vertices attaining
the largest/smallest y among the centerline vertices; and every 18-slot
mid ring produced by `mid_ring` holds, at slot `s + 9` for `s < 9`, the
negated x of slot `s` with y and z unchanged. -/
theorem c3_canonical_half_and_mirror :
    (∀ hft : List Vec3, 2 ≤ (center_indices hft).length →
      ∃ ti ∈ center_indices hft, ∃ bi ∈ center_indices hft, ∃ mid : List Vec3,
        orderedHalf hft = hft.getD ti (0, 0, 0) :: (mid ++ [hft.getD bi (0, 0, 0)]) ∧
        |(hft.getD ti (0, 0, 0)).1| < epsCenter ∧
        |(hft.getD bi (0, 0, 0)).1| < epsCenter ∧
        (∀ i ∈ center_indices hft,
          (hft.getD i (0, 0, 0)).2.1 ≤ (hft.getD ti (0, 0, 0)).2.1) ∧
        (∀ i ∈ center_indices hft,
          (hft.getD bi (0, 0, 0)).2.1 ≤ (hft.getD i (0, 0, 0)).2.1) ∧
        mid.Perm ((hft.enum.filter (fun p => !(p.1 == ti || p.1 == bi))).map Prod.snd) ∧
        mid.Sorted (fun a b => angOf b ≤ angOf a)) ∧
    (∀ (sv ring : List Vec3) (n : Nat), mid_ring sv = .ok (ring, n) →
      ring.length = 18 ∧
      ∀ s : Nat, s < 9 →
        ring.getD (s + 9) (0, 0, 0) =
          (-(ring.getD s (0, 0, 0)).1, (ring.getD s (0, 0, 0)).2.1,
            (ring.getD s (0, 0, 0)).2.2)) := by
  constructor
  · intro hft h2
    have hclne : (center_indices hft).map (fun i => (i, (hft.getD i (0, 0, 0)).2.1)) ≠ [] := by
      intro he
      have hlen := congrArg List.length he
      simp only [List.length_map, List.length_nil] at hlen
      omega
    obtain ⟨hmem, hmax⟩ := pyMaxBySnd_spec _ hclne
    obtain ⟨hmem', hmin⟩ := pyMinBySnd_spec _ hclne
    obtain ⟨ti0, hti0, hgti⟩ := List.mem_map.mp hmem
    obtain ⟨bi0, hbi0, hgbi⟩ := List.mem_map.mp hmem'
    refine ⟨(pyMaxBySnd ((center_indices hft).map
        (fun i => (i, (hft.getD i (0, 0, 0)).2.1)))).1, ?_,
      (pyMinBySnd ((center_indices hft).map
        (fun i => (i, (hft.getD i (0, 0, 0)).2.1)))).1, ?_,
      sortByAngDesc ((hft.enum.filter (fun p =>
        !(p.1 == (pyMaxBySnd ((center_indices hft).map
            (fun i => (i, (hft.getD i (0, 0, 0)).2.1)))).1 ||
          p.1 == (pyMinBySnd ((center_indices hft).map
            (fun i => (i, (hft.getD i (0, 0, 0)).2.1)))).1))).map Prod.snd),
      ?_, ?_, ?_, ?_, ?_, ?_, ?_⟩
    · rw [← hgti]; exact hti0
    · rw [← hgbi]; exact hbi0
    · simp only [orderedHalf]
      rw [if_pos h2]
    · rw [← hgti]; exact mem_center_indices hti0
    · rw [← hgbi]; exact mem_center_indices hbi0
    · intro i hi
      have h1 := hmax (i, (hft.getD i (0, 0, 0)).2.1) (List.mem_map_of_mem _ hi)
      rw [← hgti] at h1 ⊢
      exact h1
    · intro i hi
      have h1 := hmin (i, (hft.getD i (0, 0, 0)).2.1) (List.mem_map_of_mem _ hi)
      rw [← hgbi] at h1 ⊢
      exact h1
    · exact List.perm_insertionSort _ _
    · haveI : IsTotal Vec3 (fun a b => angOf b ≤ angOf a) :=
        ⟨fun a b => le_total (angOf b) (angOf a)⟩
      haveI : IsTrans Vec3 (fun a b => angOf b ≤ angOf a) :=
        ⟨fun a b c h1 h2 => le_trans h2 h1⟩
      exact List.sorted_insertionSort _ _
  · intro sv ring n h
    have hring := mid_ring_ok sv ring n h
    have h9 : (left_ring (orderedHalf ((half_raw sv).map toFeet))).length = 9 :=
      left_ring_length _
    constructor
    · rw [hring]
      simp [left_ring_length]
    · intro s hs
      rw [hring]
      rw [List.getD_append_right _ _ _ _
        (by omega : (left_ring (orderedHalf ((half_raw sv).map toFeet))).length ≤ s + 9)]
      rw [List.getD_append _ _ _ _
        (by omega : s < (left_ring (orderedHalf ((half_raw sv).map toFeet))).length)]
      rw [h9, Nat.add_sub_cancel]
      rw [getD_map_of_lt _ _ s (by omega) (0, 0, 0) (0, 0, 0)]
      obtain ⟨u, hu⟩ := left_ring_getD_fst (orderedHalf ((half_raw sv).map toFeet)) s hs
      rw [hu, snapE_neg_snapE]

set_option maxHeartbeats 2000000 in
/-- C3 witness: the theorem applied to a concrete five-vertex half (two
centerline vertices, three coincident side vertices) and to the concrete
ring `mid_ring` builds from it. -/
theorem c3_witness :
    2 ≤ (center_indices (([((0:ℚ), 2, 0), (0, -2, 0), (1, 0, 0), (1, 0, 0), (1, 0, 0)] : List Vec3))).length ∧
    (∃ ti ∈ center_indices (([((0:ℚ), 2, 0), (0, -2, 0), (1, 0, 0), (1, 0, 0), (1, 0, 0)] : List Vec3)), ∃ bi ∈ center_indices (([((0:ℚ), 2, 0), (0, -2, 0), (1, 0, 0), (1, 0, 0), (1, 0, 0)] : List Vec3)), ∃ mid : List Vec3,
        orderedHalf (([((0:ℚ), 2, 0), (0, -2, 0), (1, 0, 0), (1, 0, 0), (1, 0, 0)] : List Vec3)) = ((([((0:ℚ), 2, 0), (0, -2, 0), (1, 0, 0), (1, 0, 0), (1, 0, 0)] : List Vec3)).getD ti (0, 0, 0)) ::
            (mid ++ [(([((0:ℚ), 2, 0), (0, -2, 0), (1, 0, 0), (1, 0, 0), (1, 0, 0)] : List Vec3)).getD bi (0, 0, 0)]) ∧
        |((([((0:ℚ), 2, 0), (0, -2, 0), (1, 0, 0), (1, 0, 0), (1, 0, 0)] : List Vec3)).getD ti (0, 0, 0)).1| < epsCenter ∧
        |((([((0:ℚ), 2, 0), (0, -2, 0), (1, 0, 0), (1, 0, 0), (1, 0, 0)] : List Vec3)).getD bi (0, 0, 0)).1| < epsCenter ∧
        (∀ i ∈ center_indices (([((0:ℚ), 2, 0), (0, -2, 0), (1, 0, 0), (1, 0, 0), (1, 0, 0)] : List Vec3)),
          ((([((0:ℚ), 2, 0), (0, -2, 0), (1, 0, 0), (1, 0, 0), (1, 0, 0)] : List Vec3)).getD i (0, 0, 0)).2.1 ≤ ((([((0:ℚ), 2, 0), (0, -2, 0), (1, 0, 0), (1, 0, 0), (1, 0, 0)] : List Vec3)).getD ti (0, 0, 0)).2.1) ∧
        (∀ i ∈ center_indices (([((0:ℚ), 2, 0), (0, -2, 0), (1, 0, 0), (1, 0, 0), (1, 0, 0)] : List Vec3)),
          ((([((0:ℚ), 2, 0), (0, -2, 0), (1, 0, 0), (1, 0, 0), (1, 0, 0)] : List Vec3)).getD bi (0, 0, 0)).2.1 ≤ ((([((0:ℚ), 2, 0), (0, -2, 0), (1, 0, 0), (1, 0, 0), (1, 0, 0)] : List Vec3)).getD i (0, 0, 0)).2.1) ∧
        mid.Perm (((([((0:ℚ), 2, 0), (0, -2, 0), (1, 0, 0), (1, 0, 0), (1, 0, 0)] : List Vec3)).enum.filter (fun p => !(p.1 == ti || p.1 == bi))).map Prod.snd) ∧
        mid.Sorted (fun a b => angOf b ≤ angOf a)) ∧
    mid_ring (([((0:ℚ), 2, 0), (0, -2, 0), (1, 0, 0), (1, 0, 0), (1, 0, 0)] : List Vec3)) = .ok (([((0:ℚ), 82021/12500, 0), (82021/25000, 0, 0), (82021/25000, 0, 0),
        (82021/25000, 0, 0), (0, -82021/12500, 0), (0, -82021/12500, 0),
        (0, -82021/12500, 0), (0, -82021/12500, 0), (0, -82021/12500, 0)] ++
        [((0:ℚ), 82021/12500, 0), (-82021/25000, 0, 0), (-82021/25000, 0, 0),
        (-82021/25000, 0, 0), (0, -82021/12500, 0), (0, -82021/12500, 0),
        (0, -82021/12500, 0), (0, -82021/12500, 0), (0, -82021/12500, 0)] : List Vec3), 5) ∧
    (([((0:ℚ), 82021/12500, 0), (82021/25000, 0, 0), (82021/25000, 0, 0),
        (82021/25000, 0, 0), (0, -82021/12500, 0), (0, -82021/12500, 0),
        (0, -82021/12500, 0), (0, -82021/12500, 0), (0, -82021/12500, 0)] ++
        [((0:ℚ), 82021/12500, 0), (-82021/25000, 0, 0), (-82021/25000, 0, 0),
        (-82021/25000, 0, 0), (0, -82021/12500, 0), (0, -82021/12500, 0),
        (0, -82021/12500, 0), (0, -82021/12500, 0), (0, -82021/12500, 0)] : List Vec3)).length = 18 ∧
    (([((0:ℚ), 82021/12500, 0), (82021/25000, 0, 0), (82021/25000, 0, 0),
        (82021/25000, 0, 0), (0, -82021/12500, 0), (0, -82021/12500, 0),
        (0, -82021/12500, 0), (0, -82021/12500, 0), (0, -82021/12500, 0)] ++
        [((0:ℚ), 82021/12500, 0), (-82021/25000, 0, 0), (-82021/25000, 0, 0),
        (-82021/25000, 0, 0), (0, -82021/12500, 0), (0, -82021/12500, 0),
        (0, -82021/12500, 0), (0, -82021/12500, 0), (0, -82021/12500, 0)] : List Vec3)).getD (3 + 9) (0, 0, 0) =
      (-((([((0:ℚ), 82021/12500, 0), (82021/25000, 0, 0), (82021/25000, 0, 0),
        (82021/25000, 0, 0), (0, -82021/12500, 0), (0, -82021/12500, 0),
        (0, -82021/12500, 0), (0, -82021/12500, 0), (0, -82021/12500, 0)] ++
        [((0:ℚ), 82021/12500, 0), (-82021/25000, 0, 0), (-82021/25000, 0, 0),
        (-82021/25000, 0, 0), (0, -82021/12500, 0), (0, -82021/12500, 0),
        (0, -82021/12500, 0), (0, -82021/12500, 0), (0, -82021/12500, 0)] : List Vec3)).getD 3 (0, 0, 0)).1,
       ((([((0:ℚ), 82021/12500, 0), (82021/25000, 0, 0), (82021/25000, 0, 0),
        (82021/25000, 0, 0), (0, -82021/12500, 0), (0, -82021/12500, 0),
        (0, -82021/12500, 0), (0, -82021/12500, 0), (0, -82021/12500, 0)] ++
        [((0:ℚ), 82021/12500, 0), (-82021/25000, 0, 0), (-82021/25000, 0, 0),
        (-82021/25000, 0, 0), (0, -82021/12500, 0), (0, -82021/12500, 0),
        (0, -82021/12500, 0), (0, -82021/12500, 0), (0, -82021/12500, 0)] : List Vec3)).getD 3 (0, 0, 0)).2.1,
       ((([((0:ℚ), 82021/12500, 0), (82021/25000, 0, 0), (82021/25000, 0, 0),
        (82021/25000, 0, 0), (0, -82021/12500, 0), (0, -82021/12500, 0),
        (0, -82021/12500, 0), (0, -82021/12500, 0), (0, -82021/12500, 0)] ++
        [((0:ℚ), 82021/12500, 0), (-82021/25000, 0, 0), (-82021/25000, 0, 0),
        (-82021/25000, 0, 0), (0, -82021/12500, 0), (0, -82021/12500, 0),
        (0, -82021/12500, 0), (0, -82021/12500, 0), (0, -82021/12500, 0)] : List Vec3)).getD 3 (0, 0, 0)).2.2) := by
  have h2 : 2 ≤ (center_indices
      [((0:ℚ), 2, 0), (0, -2, 0), (1, 0, 0), (1, 0, 0), (1, 0, 0)]).length := by
    norm_num [center_indices, epsCenter, List.enum, List.enumFrom, abs_of_nonneg, abs_of_nonpos]
  have hmid : mid_ring [((0:ℚ), 2, 0), (0, -2, 0), (1, 0, 0), (1, 0, 0), (1, 0, 0)] =
      .ok (([((0:ℚ), 82021/12500, 0), (82021/25000, 0, 0), (82021/25000, 0, 0),
        (82021/25000, 0, 0), (0, -82021/12500, 0), (0, -82021/12500, 0),
        (0, -82021/12500, 0), (0, -82021/12500, 0), (0, -82021/12500, 0)] ++
        [((0:ℚ), 82021/12500, 0), (-82021/25000, 0, 0), (-82021/25000, 0, 0),
        (-82021/25000, 0, 0), (0, -82021/12500, 0), (0, -82021/12500, 0),
        (0, -82021/12500, 0), (0, -82021/12500, 0), (0, -82021/12500, 0)], 5)) := by
    have hhr : half_raw [((0:ℚ), 2, 0), (0, -2, 0), (1, 0, 0), (1, 0, 0), (1, 0, 0)]
        = [((0:ℚ), 2, 0), (0, -2, 0), (1, 0, 0), (1, 0, 0), (1, 0, 0)] := by
      norm_num [half_raw, epsSplit]
    have hmap : ([((0:ℚ), 2, 0), (0, -2, 0), (1, 0, 0), (1, 0, 0), (1, 0, 0)] :
        List Vec3).map toFeet =
        [((0:ℚ), 82021/12500, 0), (0, -82021/12500, 0), (82021/25000, 0, 0),
          (82021/25000, 0, 0), (82021/25000, 0, 0)] := by
      norm_num [toFeet, FT_PER_M]
    have hci : center_indices
        [((0:ℚ), 82021/12500, 0), (0, -82021/12500, 0), (82021/25000, 0, 0),
          (82021/25000, 0, 0), (82021/25000, 0, 0)] = [0, 1] := by
      norm_num [center_indices, epsCenter, List.enum, List.enumFrom, abs_of_nonneg,
        abs_of_nonpos]
    have hord : orderedHalf
        [((0:ℚ), 82021/12500, 0), (0, -82021/12500, 0), (82021/25000, 0, 0),
          (82021/25000, 0, 0), (82021/25000, 0, 0)] =
        [((0:ℚ), 82021/12500, 0), (82021/25000, 0, 0), (82021/25000, 0, 0),
          (82021/25000, 0, 0), (0, -82021/12500, 0)] := by
      simp only [orderedHalf, hci]
      rw [if_pos (by norm_num)]
      norm_num [pyMaxBySnd, pyMinBySnd, List.enum, List.enumFrom, List.getD_cons_zero,
        List.getD_cons_succ, sortByAngDesc, List.insertionSort, List.orderedInsert]
    have hlr : left_ring
        [((0:ℚ), 82021/12500, 0), (82021/25000, 0, 0), (82021/25000, 0, 0),
          (82021/25000, 0, 0), (0, -82021/12500, 0)] =
        [((0:ℚ), 82021/12500, 0), (82021/25000, 0, 0), (82021/25000, 0, 0),
          (82021/25000, 0, 0), (0, -82021/12500, 0), (0, -82021/12500, 0),
          (0, -82021/12500, 0), (0, -82021/12500, 0), (0, -82021/12500, 0)] := by
      norm_num [left_ring, snapE, epsQ, List.range_succ, abs_of_nonneg, abs_of_nonpos,
        List.getD_cons_zero, List.getD_cons_succ, List.getLastD]
    simp only [mid_ring, hhr, hmap, hord, hlr]
    rw [if_neg (by norm_num)]
    norm_num [snapE, epsQ, abs_of_nonneg, abs_of_nonpos]
  exact ⟨h2, c3_canonical_half_and_mirror.1 _ h2, hmid,
    (c3_canonical_half_and_mirror.2 _ _ _ hmid).1,
    (c3_canonical_half_and_mirror.2 _ _ _ hmid).2 3 (by norm_num)⟩

/-! ### C6: hard failure on malformed topology -/

lemma foldl_bind_error_stays {α β : Type _} (F : α → β → Except String β) (t : List α)
    (e : String) :
    t.foldl (fun (acc : Except String β) p => acc.bind (F p)) (.error e) = .error e := by
  induction t with
  | nil => rfl
  | cons x r ih =>
    rw [List.foldl_cons]
    exact ih

lemma foldl_bind_err {α β : Type _} (F : α → β → Except String β) (a : α)
    (hF : ∀ b, ∃ e, F a b = .error e) :
    ∀ (l : List α) (acc : Except String β), a ∈ l →
      ∃ e, l.foldl (fun (acc : Except String β) p => acc.bind (F p)) acc = .error e := by
  intro l
  induction l with
  | nil => intro acc ha; simp at ha
  | cons x t ih =>
    intro acc ha
    rw [List.foldl_cons]
    rcases List.mem_cons.mp ha with rfl | ha'
    · cases acc with
      | error e0 => exact ⟨e0, foldl_bind_error_stays F t e0⟩
      | ok b =>
        obtain ⟨e, he⟩ := hF b
        rw [show ((Except.ok b).bind (F a) : Except String β) = F a b from rfl, he]
        exact ⟨e, foldl_bind_error_stays F t e⟩
    · exact ih _ ha'

lemma midLayersE_err (layers : List (List Nat)) (tail_d : Nat) :
    ∀ (ds : List Nat) (acc : List (List Nat)),
      (∃ d ∈ ds, d ≠ 0 ∧ d ≠ tail_d ∧ (layers.getD d []).length ≠ 0 ∧
        ¬(8 ≤ (layers.getD d []).length ∧ (layers.getD d []).length ≤ 16)) →
      ∃ e, midLayersE layers tail_d ds acc = .error e := by
  intro ds
  induction ds with
  | nil =>
    intro acc h
    obtain ⟨d, hd, _⟩ := h
    simp at hd
  | cons d0 rest ih =>
    intro acc h
    obtain ⟨d, hd, h1, h2, h3, h4⟩ := h
    rcases List.mem_cons.mp hd with rfl | hd'
    · simp only [midLayersE]
      rw [if_neg (by simp [h1, h2])]
      rw [if_neg h3]
      rw [if_neg h4]
      exact ⟨_, rfl⟩
    · simp only [midLayersE]
      split
      · exact ih _ ⟨d, hd', h1, h2, h3, h4⟩
      · split
        · exact ih _ ⟨d, hd', h1, h2, h3, h4⟩
        · split
          · exact ih _ ⟨d, hd', h1, h2, h3, h4⟩
          · exact ⟨_, rfl⟩

lemma bsvg_err (verts : List Vec3) (nb : Nat → List Nat) (tail_d : Nat)
    (htd : distOf (bfsLayers nb verts.length (noseIdx verts)) (tailIdx verts) = some tail_d)
    (hbad : ((bfsLayers nb verts.length (noseIdx verts)).getD tail_d []).length ≠ 1 ∨
      ∃ d, d < (bfsLayers nb verts.length (noseIdx verts)).length ∧ d ≠ 0 ∧ d ≠ tail_d ∧
        ((bfsLayers nb verts.length (noseIdx verts)).getD d []).length ≠ 0 ∧
        ¬(8 ≤ ((bfsLayers nb verts.length (noseIdx verts)).getD d []).length ∧
          ((bfsLayers nb verts.length (noseIdx verts)).getD d []).length ≤ 16)) :
    ∃ e, build_station_vertex_groups verts nb 20 = .error e := by
  simp only [build_station_vertex_groups]
  by_cases hve : verts.isEmpty
  · rw [if_pos hve]
    exact ⟨_, rfl⟩
  · rw [if_neg hve]
    cases htd2 : distOf (bfsLayers nb verts.length (noseIdx verts)) (tailIdx verts) with
    | none => exact ⟨_, rfl⟩
    | some td =>
      rw [htd2] at htd
      have htdeq : td = tail_d := Option.some.inj htd
      subst htdeq
      dsimp only
      rcases hbad with htail | ⟨d, hdlt, h1, h2, h3, h4⟩
      · cases hm : midLayersE (bfsLayers nb verts.length (noseIdx verts)) td
            (List.range (bfsLayers nb verts.length (noseIdx verts)).length)
            [[noseIdx verts]] with
        | error e =>
          exact ⟨e, rfl⟩
        | ok sts =>
          rw [show ((Except.ok sts).bind :
              (List (List Nat) → Except String (List (List Nat))) →
                Except String (List (List Nat))) = (fun f => f sts) from rfl]
          dsimp only
          rw [if_pos htail]
          exact ⟨_, rfl⟩
      · obtain ⟨e, he⟩ := midLayersE_err (bfsLayers nb verts.length (noseIdx verts)) td
          (List.range (bfsLayers nb verts.length (noseIdx verts)).length)
          [[noseIdx verts]] ⟨d, List.mem_range.mpr hdlt, h1, h2, h3, h4⟩
        rw [he]
        exact ⟨e, rfl⟩

lemma bpr_err (verts : List Vec3) (faces : List (List Nat))
    (hne : ¬verts.length = 0)
    (hsv : ∃ e, build_station_vertex_groups (recenterX verts)
      (build_vertex_adjacency verts.length faces) 20 = .error e) :
    ∃ e, build_pm_rings_for_mesh verts faces = .error e := by
  obtain ⟨e, he⟩ := hsv
  simp only [build_pm_rings_for_mesh]
  rw [if_neg hne, he]
  exact ⟨e, rfl⟩

lemma mem_bodyOrder {groups : List (Line × ObjGroup)} {name : Line}
    (h : name ∈ groups.map Prod.fst) : name ∈ bodyOrder groups := by
  unfold bodyOrder
  by_cases hp : name ∈ priority_names.filter (fun n => (groups.map Prod.fst).contains n)
  · exact List.mem_append_left _ hp
  · refine List.mem_append_right _ ?_
    rw [List.mem_filter]
    exact ⟨h, by simpa using hp⟩

lemma lookupGroup_eq : ∀ {groups : List (Line × ObjGroup)} {name : Line} {g : ObjGroup},
    (groups.map Prod.fst).Nodup → (name, g) ∈ groups → lookupGroup groups name = g := by
  intro groups
  induction groups with
  | nil => intro name g _ h; simp at h
  | cons a t ih =>
    intro name g hnd h
    rcases List.mem_cons.mp h with rfl | h'
    · unfold lookupGroup
      rw [List.find?_cons_of_pos _ (by simp)]
      simp
    · have hnd' : (t.map Prod.fst).Nodup := by
        rw [List.map_cons, List.nodup_cons] at hnd
        exact hnd.2
      have hmemt : name ∈ t.map Prod.fst := by
        have := List.mem_map_of_mem Prod.fst h'
        simpa using this
      have hne : ((fun p : Line × ObjGroup => p.1 == name) a) = false := by
        rw [List.map_cons, List.nodup_cons] at hnd
        simp only [beq_eq_false_iff_ne, ne_eq]
        intro heq
        exact hnd.1 (heq ▸ hmemt)
      unfold lookupGroup
      rw [List.find?_cons_of_neg _ (by simp [hne])]
      exact ih hnd' h'

lemma bbo_err (groups : List (Line × ObjGroup)) (name : Line) (g : ObjGroup)
    (hmem : (name, g) ∈ groups) (hnd : (groups.map Prod.fst).Nodup)
    (hfaces : g.faces.isEmpty = false) (hlen : ¬g.verts_m.length < 10)
    (hbpr : ∃ e, build_pm_rings_for_mesh g.verts_m g.faces = .error e) :
    ∃ e, build_bodies_from_obj groups = .error e := by
  obtain ⟨e0, he0⟩ := hbpr
  have hlg : lookupGroup groups name = g := lookupGroup_eq hnd hmem
  have hbo : name ∈ bodyOrder groups := mem_bodyOrder (by simpa using List.mem_map_of_mem Prod.fst hmem)
  obtain ⟨i, hi⟩ := List.mem_iff_getElem?.mp hbo
  have hienum : ((i, name) : Nat × Line) ∈ (bodyOrder groups).enum :=
    List.mem_enum_iff_getElem?.mpr hi
  simp only [build_bodies_from_obj]
  refine foldl_bind_err
    (fun (p : Nat × Line) (bodies : List BodyData) =>
      if (lookupGroup groups p.2).faces.isEmpty then .ok bodies
      else if (lookupGroup groups p.2).verts_m.length < 10 then .ok bodies
      else (build_pm_rings_for_mesh (lookupGroup groups p.2).verts_m
          (lookupGroup groups p.2).faces).map (fun r =>
        if r.2.1.isEmpty then bodies
        else
          bodies ++
            [{ body_index := (p.1 : Int), group_name := p.2, part_x_ft := r.1,
               part_rad_ft := compute_part_rad_from_rings r.2.1 1, rings := r.2.1,
               half_n_max := r.2.2 }]))
    (i, name) ?_ _ _ hienum
  intro b
  refine ⟨e0, ?_⟩
  show (if (lookupGroup groups name).faces.isEmpty then Except.ok b
    else if (lookupGroup groups name).verts_m.length < 10 then Except.ok b
    else (build_pm_rings_for_mesh (lookupGroup groups name).verts_m
        (lookupGroup groups name).faces).map _) = Except.error e0
  rw [hlg, if_neg (by simp [hfaces]), if_neg hlen, he0]
  rfl

/-- C6: a mesh whose BFS tail layer does not have exactly one vertex, or
one of whose interior layers falls outside 8..16 vertices, makes
`build_station_vertex_groups` fail; the failure propagates through
`build_pm_rings_for_mesh` and `build_bodies_from_obj`, and
`generate_bodies_and_rewrite_acf` produces no output at all. -/
theorem c6_malformed_topology_aborts
    (groups : List (Line × ObjGroup)) (name : Line) (g : ObjGroup)
    (acf_lines template_lines : List Line) (mesh_rows : List MeshRow)
    (hmem : (name, g) ∈ groups)
    (hnd : (groups.map Prod.fst).Nodup)
    (hfaces : g.faces.isEmpty = false)
    (hlen : ¬g.verts_m.length < 10)
    (tail_d : Nat)
    (htd : distOf (bfsLayers (build_vertex_adjacency g.verts_m.length g.faces)
        (recenterX g.verts_m).length (noseIdx (recenterX g.verts_m)))
        (tailIdx (recenterX g.verts_m)) = some tail_d)
    (hbad : (((bfsLayers (build_vertex_adjacency g.verts_m.length g.faces)
          (recenterX g.verts_m).length (noseIdx (recenterX g.verts_m))).getD tail_d
          []).length ≠ 1 ∨
      ∃ d, d < (bfsLayers (build_vertex_adjacency g.verts_m.length g.faces)
          (recenterX g.verts_m).length (noseIdx (recenterX g.verts_m))).length ∧
        d ≠ 0 ∧ d ≠ tail_d ∧
        ((bfsLayers (build_vertex_adjacency g.verts_m.length g.faces)
          (recenterX g.verts_m).length (noseIdx (recenterX g.verts_m))).getD d
          []).length ≠ 0 ∧
        ¬(8 ≤ ((bfsLayers (build_vertex_adjacency g.verts_m.length g.faces)
            (recenterX g.verts_m).length (noseIdx (recenterX g.verts_m))).getD d
            []).length ∧
          ((bfsLayers (build_vertex_adjacency g.verts_m.length g.faces)
            (recenterX g.verts_m).length (noseIdx (recenterX g.verts_m))).getD d
            []).length ≤ 16))) :
    (∃ e, build_station_vertex_groups (recenterX g.verts_m)
        (build_vertex_adjacency g.verts_m.length g.faces) 20 = .error e) ∧
    (∃ e, build_pm_rings_for_mesh g.verts_m g.faces = .error e) ∧
    generate_bodies_and_rewrite_acf groups acf_lines template_lines mesh_rows = none := by
  have hsv : ∃ e, build_station_vertex_groups (recenterX g.verts_m)
      (build_vertex_adjacency g.verts_m.length g.faces) 20 = .error e :=
    bsvg_err (recenterX g.verts_m)
      (build_vertex_adjacency g.verts_m.length g.faces) tail_d htd hbad
  have hpr : ∃ e, build_pm_rings_for_mesh g.verts_m g.faces = .error e :=
    bpr_err g.verts_m g.faces (by omega) hsv
  have hbb : ∃ e, build_bodies_from_obj groups = .error e :=
    bbo_err groups name g hmem hnd hfaces hlen hpr
  refine ⟨hsv, hpr, ?_⟩
  obtain ⟨e, he⟩ := hbb
  simp only [generate_bodies_and_rewrite_acf, he]

/-- C6 witness: the theorem applied to a concrete 10-vertex path mesh
(every interior BFS layer has exactly one vertex, far below the 8..16
bound), wrapped in a one-group OBJ. -/
theorem c6_witness :
    ((['m'], (⟨[((0:ℚ), 0, 0), (0, 0, 1), (0, 0, 2), (0, 0, 3), (0, 0, 4), (0, 0, 5),
        (0, 0, 6), (0, 0, 7), (0, 0, 8), (0, 0, 9)],
      [[0, 1], [1, 2], [2, 3], [3, 4], [4, 5], [5, 6], [6, 7], [7, 8], [8, 9]]⟩ : ObjGroup)) ∈
      [((['m'] : Line), (⟨[((0:ℚ), 0, 0), (0, 0, 1), (0, 0, 2), (0, 0, 3), (0, 0, 4), (0, 0, 5),
        (0, 0, 6), (0, 0, 7), (0, 0, 8), (0, 0, 9)],
      [[0, 1], [1, 2], [2, 3], [3, 4], [4, 5], [5, 6], [6, 7], [7, 8], [8, 9]]⟩ : ObjGroup))]) ∧
    distOf (bfsLayers
      (build_vertex_adjacency ([((0:ℚ), 0, 0), (0, 0, 1), (0, 0, 2), (0, 0, 3), (0, 0, 4),
        (0, 0, 5), (0, 0, 6), (0, 0, 7), (0, 0, 8), (0, 0, 9)] : List Vec3).length
        [[0, 1], [1, 2], [2, 3], [3, 4], [4, 5], [5, 6], [6, 7], [7, 8], [8, 9]])
      (recenterX [((0:ℚ), 0, 0), (0, 0, 1), (0, 0, 2), (0, 0, 3), (0, 0, 4), (0, 0, 5),
        (0, 0, 6), (0, 0, 7), (0, 0, 8), (0, 0, 9)]).length
      (noseIdx (recenterX [((0:ℚ), 0, 0), (0, 0, 1), (0, 0, 2), (0, 0, 3), (0, 0, 4), (0, 0, 5),
        (0, 0, 6), (0, 0, 7), (0, 0, 8), (0, 0, 9)])))
      (tailIdx (recenterX [((0:ℚ), 0, 0), (0, 0, 1), (0, 0, 2), (0, 0, 3), (0, 0, 4), (0, 0, 5),
        (0, 0, 6), (0, 0, 7), (0, 0, 8), (0, 0, 9)])) = some 9 ∧
    (∃ e, build_station_vertex_groups
      (recenterX [((0:ℚ), 0, 0), (0, 0, 1), (0, 0, 2), (0, 0, 3), (0, 0, 4), (0, 0, 5),
        (0, 0, 6), (0, 0, 7), (0, 0, 8), (0, 0, 9)])
      (build_vertex_adjacency ([((0:ℚ), 0, 0), (0, 0, 1), (0, 0, 2), (0, 0, 3), (0, 0, 4),
        (0, 0, 5), (0, 0, 6), (0, 0, 7), (0, 0, 8), (0, 0, 9)] : List Vec3).length
        [[0, 1], [1, 2], [2, 3], [3, 4], [4, 5], [5, 6], [6, 7], [7, 8], [8, 9]]) 20 =
      .error e) ∧
    (∃ e, build_pm_rings_for_mesh
      [((0:ℚ), 0, 0), (0, 0, 1), (0, 0, 2), (0, 0, 3), (0, 0, 4), (0, 0, 5),
        (0, 0, 6), (0, 0, 7), (0, 0, 8), (0, 0, 9)]
      [[0, 1], [1, 2], [2, 3], [3, 4], [4, 5], [5, 6], [6, 7], [7, 8], [8, 9]] = .error e) ∧
    generate_bodies_and_rewrite_acf
      [((['m'] : Line), (⟨[((0:ℚ), 0, 0), (0, 0, 1), (0, 0, 2), (0, 0, 3), (0, 0, 4), (0, 0, 5),
        (0, 0, 6), (0, 0, 7), (0, 0, 8), (0, 0, 9)],
      [[0, 1], [1, 2], [2, 3], [3, 4], [4, 5], [5, 6], [6, 7], [7, 8], [8, 9]]⟩ : ObjGroup))]
      [] [] [] = none := by
  have hmem : ((['m'], (⟨[((0:ℚ), 0, 0), (0, 0, 1), (0, 0, 2), (0, 0, 3), (0, 0, 4), (0, 0, 5),
      (0, 0, 6), (0, 0, 7), (0, 0, 8), (0, 0, 9)],
      [[0, 1], [1, 2], [2, 3], [3, 4], [4, 5], [5, 6], [6, 7], [7, 8], [8, 9]]⟩ : ObjGroup)) ∈
      [((['m'] : Line), (⟨[((0:ℚ), 0, 0), (0, 0, 1), (0, 0, 2), (0, 0, 3), (0, 0, 4), (0, 0, 5),
      (0, 0, 6), (0, 0, 7), (0, 0, 8), (0, 0, 9)],
      [[0, 1], [1, 2], [2, 3], [3, 4], [4, 5], [5, 6], [6, 7], [7, 8], [8, 9]]⟩ : ObjGroup))]) :=
    List.mem_singleton.mpr rfl
  have htdw : distOf (bfsLayers
      (build_vertex_adjacency ([((0:ℚ), 0, 0), (0, 0, 1), (0, 0, 2), (0, 0, 3), (0, 0, 4),
        (0, 0, 5), (0, 0, 6), (0, 0, 7), (0, 0, 8), (0, 0, 9)] : List Vec3).length
        [[0, 1], [1, 2], [2, 3], [3, 4], [4, 5], [5, 6], [6, 7], [7, 8], [8, 9]])
      (recenterX [((0:ℚ), 0, 0), (0, 0, 1), (0, 0, 2), (0, 0, 3), (0, 0, 4), (0, 0, 5),
        (0, 0, 6), (0, 0, 7), (0, 0, 8), (0, 0, 9)]).length
      (noseIdx (recenterX [((0:ℚ), 0, 0), (0, 0, 1), (0, 0, 2), (0, 0, 3), (0, 0, 4), (0, 0, 5),
        (0, 0, 6), (0, 0, 7), (0, 0, 8), (0, 0, 9)])))
      (tailIdx (recenterX [((0:ℚ), 0, 0), (0, 0, 1), (0, 0, 2), (0, 0, 3), (0, 0, 4), (0, 0, 5),
        (0, 0, 6), (0, 0, 7), (0, 0, 8), (0, 0, 9)])) = some 9 := by decide
  have hr := c6_malformed_topology_aborts
    [((['m'] : Line), (⟨[((0:ℚ), 0, 0), (0, 0, 1), (0, 0, 2), (0, 0, 3), (0, 0, 4), (0, 0, 5),
        (0, 0, 6), (0, 0, 7), (0, 0, 8), (0, 0, 9)],
      [[0, 1], [1, 2], [2, 3], [3, 4], [4, 5], [5, 6], [6, 7], [7, 8], [8, 9]]⟩ : ObjGroup))]
    ['m']
    (⟨[((0:ℚ), 0, 0), (0, 0, 1), (0, 0, 2), (0, 0, 3), (0, 0, 4), (0, 0, 5),
        (0, 0, 6), (0, 0, 7), (0, 0, 8), (0, 0, 9)],
      [[0, 1], [1, 2], [2, 3], [3, 4], [4, 5], [5, 6], [6, 7], [7, 8], [8, 9]]⟩ : ObjGroup)
    [] [] [] hmem (by decide) (by decide) (by decide) 9 htdw
    (Or.inr ⟨1, by decide, by decide, by decide, by decide, by decide⟩)
  exact ⟨hmem, htdw, hr.1, hr.2.1, hr.2.2⟩
